import Mathlib

/-!
# card_comm.c : a shallow embedding of the card-session protocol layer

Conventions of the embedding.

* A byte (`BYTE`, `char`) is a natural number; the casts `(BYTE)x` and `x & 0xFF` of an
  `int` are `x % 256`.
* A `const char*` argument is the list of bytes readable from the pointer onwards: the
  characters of the text, then its NUL terminator, then whatever memory follows. A read
  beyond the end of the list yields 0. A text `t` without NUL therefore sits in memory as
  `t ++ 0 :: tail` for some `tail`, and also plain `t` stands for it.
* A `char*` result (a NUL-terminated buffer) is the list of characters before the NUL.
* `int` and `LONG` values are integers.
* The PC/SC subsystem is external: its state is a type parameter `σ`; `SCardTransmit` is
  a parameter of every operation that calls it, and the session calls
  (`SCardEstablishContext`, `SCardListReaders`, `SCardConnect`, `SCardDisconnect`,
  `SCardReleaseContext`) are the fields of a parameter `Subsystem σ`. Every call is
  appended to a log kept in the program state, so that the calls an operation makes can
  be observed.
-/

namespace CardComm

/-! ## C library -/

/-- The `isxdigit` of the C locale. -/
def isxdigit (c : Nat) : Bool :=
  (48 ≤ c && c ≤ 57) || (65 ≤ c && c ≤ 70) || (97 ≤ c && c ≤ 102)

/-- The `isspace` of the C locale: space, `\t`, `\n`, `\v`, `\f`, `\r`. -/
def isspace (c : Nat) : Bool :=
  c == 32 || (9 ≤ c && c ≤ 13)

/-- Value of a hexadecimal digit character. -/
def hexval (c : Nat) : Nat :=
  if c ≤ 57 then c - 48 else if c ≤ 70 then c - 55 else c - 87

/-- The call `sscanf(p, "%2hhx", &b)`: `some b` when it returns 1 and stores `b`, `none`
when it returns anything else (0 on a matching failure, `EOF` at the end of the string).
The directive skips leading white space, then reads an input item of at most two
characters (the field width): an optional sign, which counts towards the width, and
hexadecimal digits. One digit alone is a complete item. The value is stored as an
`unsigned char`. A leading `0x` within the width yields 0, as the digit `0` followed by a
character that is no digit does. -/
def sscanf_2hhx (p : List Nat) : Option Nat :=
  match p.dropWhile isspace with
  | [] => none
  | c :: rest =>
    if c = 43 ∨ c = 45 then
      match rest with
      | [] => none
      | d :: _ =>
        if isxdigit d then
          some (if c = 45 then (256 - hexval d) % 256 else hexval d)
        else none
    else if isxdigit c then
      match rest with
      | [] => some (hexval c)
      | d :: _ => if isxdigit d then some (16 * hexval c + hexval d) else some (hexval c)
    else none

/-- The `strlen` of the text at a pointer: the number of bytes before the first NUL. -/
def strlen (s : List Nat) : Nat :=
  (s.takeWhile (fun c => c != 0)).length

/-- A string literal as the list of its character codes. -/
def lit (s : String) : List Nat :=
  s.toList.map Char.toNat

/-! ## Codec -/

/-- The function `string_to_hex(str, bytes, max_len)`: the return value, and the bytes
written to `bytes[0..]` (both loops write consecutive positions starting at 0). -/
def string_to_hex (str : List Nat) (max_len : Int) : Int × List Nat :=
  let len0 : Int := strlen str
  let len : Int := if len0 > max_len then max_len else len0
  let copied := (str.take len.toNat).map (fun c => c % 256)
  let zeros := List.replicate ((min 16 max_len) - len).toNat 0
  (if len < 16 then 16 else len, copied ++ zeros)

/-- The `while` loop of `hex_to_bytes`: the first argument is the memory at `p`, the
second the bytes written so far (`len` is their number). After a successful `sscanf` the
pointer advances by two whatever the number of characters `sscanf` consumed. -/
def hex_to_bytes_loop (max_len : Int) : List Nat → List Nat → List Nat
  | [], bytes => bytes
  | c :: rest, bytes =>
    if c ≠ 0 ∧ (bytes.length : Int) < max_len then
      if c = 32 then hex_to_bytes_loop max_len rest bytes
      else
        match sscanf_2hhx (c :: rest) with
        | some b =>
          match rest with
          | [] => bytes ++ [b]
          | _ :: rest2 => hex_to_bytes_loop max_len rest2 (bytes ++ [b])
        | none => bytes
    else bytes

/-- The function `hex_to_bytes(hex, bytes, max_len)`: the bytes written to `bytes[0..len)`;
the return value `len` is the length of the list. -/
def hex_to_bytes (hex : List Nat) (max_len : Int) : List Nat :=
  hex_to_bytes_loop max_len hex []

/-- The `for` loop of `bytes_to_string`: the first argument is `bytes[i..len)`, the second
the characters written so far (`j` is their number). -/
def bytes_to_string_loop (max_str_len : Int) : List Nat → List Nat → List Nat
  | [], str => str
  | b :: rest, str =>
    if (str.length : Int) < max_str_len - 1 then
      if 32 ≤ b ∧ b ≤ 126 then bytes_to_string_loop max_str_len rest (str ++ [b])
      else if b = 0 then str
      else bytes_to_string_loop max_str_len rest (str ++ [46])
    else str

/-- The function `bytes_to_string(bytes, len, str, max_str_len)`: the text left in `str`. -/
def bytes_to_string (bytes : List Nat) (len : Int) (max_str_len : Int) : List Nat :=
  bytes_to_string_loop max_str_len (bytes.take len.toNat) []

/-! ## Formatting (`sprintf` conversions) -/

/-- An uppercase hexadecimal digit character. -/
def hexDigitUpper (d : Nat) : Nat :=
  if d < 10 then 48 + d else 55 + d

/-- The conversion `%02X` of a `BYTE`. -/
def fmt_02X (b : Nat) : List Nat :=
  [hexDigitUpper (b % 256 / 16), hexDigitUpper (b % 16)]

/-- The conversion `%08lX` of a `LONG` (a 64-bit `long`, printed as `unsigned long`). -/
def fmt_08lX (rv : Int) : List Nat :=
  let ds := (Nat.toDigits 16 (rv % 18446744073709551616).toNat).map
    (fun c => c.toUpper.toNat)
  List.replicate (8 - ds.length) 48 ++ ds

/-- The conversion `%d` of an `int`. -/
def fmt_d (n : Int) : List Nat :=
  lit (toString n)

/-- The conversion `%lu` of a `DWORD`. -/
def fmt_lu (n : Nat) : List Nat :=
  lit (toString n)

/-! ## PC/SC interface -/

/-- The constant `SCARD_S_SUCCESS` of `winscard.h`. -/
def SCARD_S_SUCCESS : Int := 0

/-- The constant `SCARD_PROTOCOL_T0` of `winscard.h`. -/
def SCARD_PROTOCOL_T0 : Nat := 1

/-- The constant `SCARD_PROTOCOL_T1` of `winscard.h`. -/
def SCARD_PROTOCOL_T1 : Nat := 2

/-- The constant `SCARD_LEAVE_CARD` of `winscard.h`. -/
def SCARD_LEAVE_CARD : Nat := 0

/-- The constant `SCARD_SHARE_SHARED` of `winscard.h`. -/
def SCARD_SHARE_SHARED : Nat := 2

/-- The constant `SCARD_SCOPE_SYSTEM` of `winscard.h`. -/
def SCARD_SCOPE_SYSTEM : Nat := 2

/-- What one `SCardEstablishContext` leaves behind: its return value and the value it
wrote to `*phContext` (`none` when it left the variable untouched). -/
structure EstablishResult where
  rv : Int
  hContext : Option Nat
deriving DecidableEq

/-- What one `SCardListReaders` leaves behind: its return value and the bytes it wrote to
the buffer `readers` from position 0 on (the buffer was zeroed before the call, so the
bytes behind them are 0). -/
structure ListReadersResult where
  rv : Int
  readers : List Nat
deriving DecidableEq

/-- What one `SCardConnect` leaves behind: its return value and the values it wrote to
`*phCard` and `*pdwActiveProtocol` (`none` when it left the variable untouched). -/
structure ConnectResult where
  rv : Int
  hCard : Option Nat
  dwActiveProtocol : Option Nat
deriving DecidableEq

/-- A behaviour of the session calls of the PC/SC subsystem. `disconnect` and
`releaseContext` yield only the next state of the subsystem: the program does not look at
their return values. -/
structure Subsystem (σ : Type) where
  establishContext : σ → Nat → EstablishResult × σ
  listReaders : σ → Nat → ListReadersResult × σ
  connect : σ → Nat → List Nat → Nat → Nat → ConnectResult × σ
  disconnect : σ → Nat → Nat → σ
  releaseContext : σ → Nat → σ

/-- What one `SCardTransmit` leaves behind: its return value, and the response it wrote
to the receive buffer (`dwRecvLength` is the length of `recv`). -/
structure TransmitResult where
  rv : Int
  recv : List Nat
deriving DecidableEq

/-- A behaviour of `SCardTransmit`: from the state of the subsystem, the card handle, the
protocol of the `pioSendPci` structure and the frame sent, the result and the next state
of the subsystem. -/
abbrev Transmit (σ : Type) := σ → Nat → Nat → List Nat → TransmitResult × σ

/-- A call of the PC/SC subsystem, as recorded in the log. -/
inductive PcscCall where
  | transmit (hCard : Nat) (pci : Nat) (send : List Nat)
  | establishContext (scope : Nat) (rv : Int) (hContext : Option Nat)
  | listReaders (hContext : Nat) (rv : Int)
  | connect (hContext : Nat) (reader : List Nat) (shareMode : Nat) (protocols : Nat)
      (rv : Int) (hCard : Option Nat)
  | disconnect (hCard : Nat) (disposition : Nat)
  | releaseContext (hContext : Nat)
deriving DecidableEq

/-- The global variables of `card_comm.c`, the state of the PC/SC subsystem and the log
of the calls made to it. -/
structure Globals (σ : Type) where
  hContext : Nat
  hCard : Nat
  dwActiveProtocol : Nat
  error_msg : List Nat
  pcsc : σ
  log : List PcscCall

/-- The protocol of the structure `pioSendPci` that each operation selects before it
transmits: `SCARD_PCI_T0` when `dwActiveProtocol == SCARD_PROTOCOL_T0`, else
`SCARD_PCI_T1`. -/
def pioSendPci {σ : Type} (g : Globals σ) : Nat :=
  if g.dwActiveProtocol = SCARD_PROTOCOL_T0 then SCARD_PROTOCOL_T0 else SCARD_PROTOCOL_T1

/-- One `SCardTransmit(hCard, pioSendPci, send, length, NULL, pbRecvBuffer, &dwRecvLength)`
with `pioSendPci` selected from `dwActiveProtocol` as the four operations do. -/
def SCardTransmit {σ : Type} (tx : Transmit σ) (g : Globals σ) (send : List Nat) :
    TransmitResult × Globals σ :=
  let r := tx g.pcsc g.hCard (pioSendPci g) send
  (r.1, { g with pcsc := r.2,
                 log := g.log ++ [PcscCall.transmit g.hCard (pioSendPci g) send] })

/-- Byte `i` of the receive buffer after a transmit. A position the subsystem did not
write is read as 0 here; in C the buffer is an uninitialised local and such a byte is
indeterminate. Only `write_block_string` can read one (it prints `pbRecvBuffer[0]` and
`pbRecvBuffer[1]` without a length test, line 423), so its message after a response of
fewer than two bytes is fixed by this model only up to the text `Write failed: SW=`;
every other read is guarded by a test on the length. -/
def recvByte (r : TransmitResult) (i : Nat) : Nat :=
  r.recv.getD i 0

/-! ## Operations -/

/-- The function `get_last_error()`. -/
def get_last_error {σ : Type} (g : Globals σ) : List Nat :=
  g.error_msg

/-- The function `load_key(key, key_location)`: return value and next state. -/
def load_key {σ : Type} (tx : Transmit σ) (g : Globals σ) (key : List Nat)
    (key_location : Int) : Int × Globals σ :=
  if g.hCard = 0 then
    (-1, { g with error_msg := lit "Not connected to card" })
  else
    let header : List Nat := [0xFF, 0x82, 0x20, (key_location % 256).toNat, 0x06]
    let keyBytes := hex_to_bytes key 6
    let key_len : Int := keyBytes.length
    if key_len ≠ 6 then
      let msg := lit "Invalid key length: expected 12 hex chars, got " ++ fmt_d key_len
        ++ lit " bytes"
      (-1, { g with error_msg := msg })
    else
      let (r, g1) := SCardTransmit tx g (header ++ keyBytes)
      if r.rv ≠ SCARD_S_SUCCESS then
        (-1, { g1 with error_msg := lit "SCardTransmit failed (0x" ++ fmt_08lX r.rv ++ lit ")" })
      else if r.recv.length ≥ 2 then
        if recvByte r 0 = 0x90 ∧ recvByte r 1 = 0x00 then
          (0, { g1 with error_msg := lit "Key loaded successfully" })
        else if recvByte r 0 = 0x69 ∧ recvByte r 1 = 0x86 then
          (-1, { g1 with error_msg := lit "Load key not supported - trying alternative method" })
        else
          let msg := lit "Load key failed: SW=" ++ fmt_02X (recvByte r 0)
            ++ fmt_02X (recvByte r 1)
          (-1, { g1 with error_msg := msg })
      else
        (-1, { g1 with error_msg := lit "Invalid response length: " ++ fmt_lu r.recv.length })

/-- The function `authenticate_block(block_number, key_type, key_location)`. -/
def authenticate_block {σ : Type} (tx : Transmit σ) (g : Globals σ) (block_number : Int)
    (key_type : Int) (key_location : Int) : Int × Globals σ :=
  if g.hCard = 0 then
    (-1, { g with error_msg := lit "Not connected to card" })
  else
    let send : List Nat := [0xFF, 0x86, 0x00, 0x00, 0x05, 0x01, 0x00,
      (block_number % 256).toNat, (key_type % 256).toNat, (key_location % 256).toNat]
    let (r, g1) := SCardTransmit tx g send
    if r.rv ≠ SCARD_S_SUCCESS then
      let msg := lit "Auth SCardTransmit failed (0x" ++ fmt_08lX r.rv ++ lit ")"
      (-1, { g1 with error_msg := msg })
    else if r.recv.length ≥ 2 then
      if recvByte r 0 = 0x90 ∧ recvByte r 1 = 0x00 then
        (0, { g1 with error_msg := lit "Authentication successful" })
      else
        let msg := lit "Authentication failed: SW=" ++ fmt_02X (recvByte r 0)
          ++ fmt_02X (recvByte r 1)
        (-1, { g1 with error_msg := msg })
    else
      (-1, { g1 with error_msg := lit "Invalid auth response length: " ++ fmt_lu r.recv.length })

/-- The hex dump loop of `read_block_string`: `sprintf(hex + strlen(hex), "%02X ", b)` for
each byte in turn. -/
def hex_dump : List Nat → List Nat
  | [] => []
  | b :: rest => fmt_02X b ++ [32] ++ hex_dump rest

/-- The function `read_block_string(key, block_number)`: the text returned (the content
of the static buffer `result`) and the next state. The local buffers are not modelled:
`text[128]` and `result[512]` are never exceeded (`bytes_to_string` is given its size, and
`snprintf` the size of `result`), but `hex[256]` takes three characters for each payload
byte, so the model is the C function only for responses of at most 87 bytes (85 payload
bytes and the status word); for a longer response the C loop writes past the end of
`hex`, which is undefined there. -/
def read_block_string {σ : Type} (tx : Transmit σ) (g : Globals σ) (key : List Nat)
    (block_number : Int) : List Nat × Globals σ :=
  if g.hCard = 0 then
    (lit "ERROR: Not connected to card", g)
  else
    let (rc1, g1) := load_key tx g key 0x00
    if rc1 ≠ 0 then
      (lit "ERROR: " ++ g1.error_msg, g1)
    else
      let (rc2, g2) := authenticate_block tx g1 block_number 0x60 0x00
      if rc2 ≠ 0 then
        (lit "ERROR: " ++ g2.error_msg, g2)
      else
        let send : List Nat := [0xFF, 0xB0, 0x00, (block_number % 256).toNat, 0x10]
        let (r, g3) := SCardTransmit tx g2 send
        if r.rv ≠ SCARD_S_SUCCESS then
          (lit "ERROR: Read failed (0x" ++ fmt_08lX r.rv ++ lit ")", g3)
        else if r.recv.length < 2 then
          (lit "ERROR: Invalid response", g3)
        else
          let n := r.recv.length
          if recvByte r (n - 2) ≠ 0x90 ∨ recvByte r (n - 1) ≠ 0x00 then
            (lit "ERROR: Read failed [SW=" ++ fmt_02X (recvByte r (n - 2))
              ++ fmt_02X (recvByte r (n - 1)) ++ lit "]", g3)
          else
            let text := bytes_to_string r.recv ((n : Int) - 2) 128
            let hex := hex_dump (r.recv.take (n - 2))
            (text ++ lit "\n[Hex: " ++ hex ++ lit "]", g3)

/-- The function `write_block_string(key, block_number, text)`. In the last message the
two bytes are read through `recvByte`: see there for a response of fewer than two
bytes. -/
def write_block_string {σ : Type} (tx : Transmit σ) (g : Globals σ) (key : List Nat)
    (block_number : Int) (text : List Nat) : Int × Globals σ :=
  if g.hCard = 0 then
    (-1, { g with error_msg := lit "Not connected to card" })
  else
    let (rc1, g1) := load_key tx g key 0x00
    if rc1 ≠ 0 then (-1, g1)
    else
      let (rc2, g2) := authenticate_block tx g1 block_number 0x60 0x00
      if rc2 ≠ 0 then (-2, g2)
      else
        let (data_len, data) := string_to_hex text 16
        let send : List Nat :=
          [0xFF, 0xD6, 0x00, (block_number % 256).toNat, (data_len % 256).toNat]
            ++ data.take data_len.toNat
        let (r, g3) := SCardTransmit tx g2 send
        if r.rv ≠ SCARD_S_SUCCESS then
          (-3, { g3 with error_msg := lit "Write failed (0x" ++ fmt_08lX r.rv ++ lit ")" })
        else if r.recv.length ≥ 2 ∧ recvByte r 0 = 0x90 ∧ recvByte r 1 = 0x00 then
          (0, { g3 with error_msg := lit "Write successful" })
        else
          let msg := lit "Write failed: SW=" ++ fmt_02X (recvByte r 0)
            ++ fmt_02X (recvByte r 1)
          (-4, { g3 with error_msg := msg })

/-! ## Session lifecycle -/

/-- The `while (*p)` loop of `list_readers`: `p` is the memory at the pointer, `temp` the
text gathered so far, `first` the flag. The first argument bounds the number of
iterations; every iteration moves `p` forward by at least two bytes, so the length of the
buffer is a sufficient bound. -/
def list_readers_loop : Nat → List Nat → List Nat → Bool → List Nat
  | 0, _, temp, _ => temp
  | fuel + 1, p, temp, first =>
    if p.headD 0 ≠ 0 then
      let temp1 := if first then temp else temp ++ [44]
      let temp2 := temp1 ++ p.takeWhile (fun c => c != 0)
      list_readers_loop fuel (p.drop (strlen p + 1)) temp2 false
    else temp

/-- The function `list_readers()`: the text returned (the content of the static buffer
`readers`) and the next state. -/
def list_readers {σ : Type} (ps : Subsystem σ) (g : Globals σ) : List Nat × Globals σ :=
  let e := ps.establishContext g.pcsc SCARD_SCOPE_SYSTEM
  let g1 : Globals σ := { g with pcsc := e.2,
                                 hContext := e.1.hContext.getD g.hContext,
                                 log := g.log ++ [PcscCall.establishContext SCARD_SCOPE_SYSTEM e.1.rv e.1.hContext] }
  if e.1.rv ≠ SCARD_S_SUCCESS then
    (lit "ERROR: Cannot establish context (0x" ++ fmt_08lX e.1.rv ++ lit ")", g1)
  else
    let l := ps.listReaders g1.pcsc g1.hContext
    let g2 : Globals σ := { g1 with pcsc := l.2,
                                    log := g1.log ++ [PcscCall.listReaders g1.hContext l.1.rv] }
    if l.1.rv ≠ SCARD_S_SUCCESS then
      (lit "ERROR: No readers found (0x" ++ fmt_08lX l.1.rv ++ lit ")", g2)
    else
      (list_readers_loop l.1.readers.length l.1.readers [] true, g2)

/-- The function `connect_reader(reader_name)`: return value and next state. -/
def connect_reader {σ : Type} (ps : Subsystem σ) (g : Globals σ) (reader_name : List Nat) :
    Int × Globals σ :=
  let g0 : Globals σ :=
    if g.hCard ≠ 0 then
      { g with pcsc := ps.disconnect g.pcsc g.hCard SCARD_LEAVE_CARD,
               hCard := 0,
               log := g.log ++ [PcscCall.disconnect g.hCard SCARD_LEAVE_CARD] }
    else g
  let protocols := SCARD_PROTOCOL_T0 ||| SCARD_PROTOCOL_T1
  let r := ps.connect g0.pcsc g0.hContext reader_name SCARD_SHARE_SHARED protocols
  let g1 : Globals σ :=
    { g0 with pcsc := r.2,
              hCard := r.1.hCard.getD g0.hCard,
              dwActiveProtocol := r.1.dwActiveProtocol.getD g0.dwActiveProtocol,
              log := g0.log ++ [PcscCall.connect g0.hContext reader_name SCARD_SHARE_SHARED protocols r.1.rv r.1.hCard] }
  if r.1.rv ≠ SCARD_S_SUCCESS then
    (-1, { g1 with error_msg := lit "SCardConnect failed (0x" ++ fmt_08lX r.1.rv ++ lit ")" })
  else
    let proto := if g1.dwActiveProtocol = SCARD_PROTOCOL_T0 then lit "T0" else lit "T1"
    (0, { g1 with error_msg := lit "Connected using protocol: " ++ proto })

/-- The function `disconnect_card()`. -/
def disconnect_card {σ : Type} (ps : Subsystem σ) (g : Globals σ) : Globals σ :=
  if g.hCard ≠ 0 then
    { g with pcsc := ps.disconnect g.pcsc g.hCard SCARD_LEAVE_CARD,
             hCard := 0,
             log := g.log ++ [PcscCall.disconnect g.hCard SCARD_LEAVE_CARD] }
  else g

/-- The function `cleanup()`. -/
def cleanup {σ : Type} (ps : Subsystem σ) (g : Globals σ) : Globals σ :=
  let g1 := disconnect_card ps g
  if g1.hContext ≠ 0 then
    { g1 with pcsc := ps.releaseContext g1.pcsc g1.hContext,
              hContext := 0,
              log := g1.log ++ [PcscCall.releaseContext g1.hContext] }
  else g1

/-- A call of one of the four session operations. -/
inductive SessionCall where
  | list_readers
  | connect_reader (reader_name : List Nat)
  | disconnect_card
  | cleanup
deriving DecidableEq

/-- The state after one session call (return values dropped). -/
def session_step {σ : Type} (ps : Subsystem σ) (g : Globals σ) : SessionCall → Globals σ
  | SessionCall.list_readers => (list_readers ps g).2
  | SessionCall.connect_reader reader_name => (connect_reader ps g reader_name).2
  | SessionCall.disconnect_card => disconnect_card ps g
  | SessionCall.cleanup => cleanup ps g

/-- The state after a sequence of session calls. -/
def session_run {σ : Type} (ps : Subsystem σ) (g : Globals σ) (calls : List SessionCall) :
    Globals σ :=
  calls.foldl (session_step ps) g

/-- The globals at program start (all zero-initialised), in front of a subsystem in state
`s`, with an empty log. -/
def program_start {σ : Type} (s : σ) : Globals σ :=
  ⟨0, 0, 0, [], s, []⟩

/-- The effect of one logged call on the connections that are open at the subsystem: a
successful `SCardConnect` opens the handle it returned, an `SCardDisconnect` closes the
handle it is given. -/
def live_step (live : List Nat) : PcscCall → List Nat
  | PcscCall.connect _ _ _ _ rv hCard => if rv = 0 then hCard.getD 0 :: live else live
  | PcscCall.disconnect hCard _ => live.erase hCard
  | _ => live

/-- The connections opened and not yet closed after a log of calls. -/
def live_connections (log : List PcscCall) : List Nat :=
  log.foldl live_step []

/-! ## Test doubles -/

/-- A transport that answers every frame with the status word `90 00`. -/
def okTransport : Transmit Unit :=
  fun _ _ _ _ => (⟨0, [0x90, 0x00]⟩, ())

/-- A connected session in front of a stateless transport. -/
def connected : Globals Unit :=
  ⟨1, 1, SCARD_PROTOCOL_T1, [], (), []⟩

/-! ## Specification-side renderings -/

/-- The rendering of a byte sequence as two uppercase hexadecimal digits per byte, the
bytes separated by single spaces. -/
def encode_hex : List Nat → List Nat
  | [] => []
  | [b] => fmt_02X b
  | b :: c :: rest => fmt_02X b ++ [32] ++ encode_hex (c :: rest)

/-- The display character of a byte that is not NUL. -/
def display_char (b : Nat) : Nat :=
  if 32 ≤ b ∧ b ≤ 126 then b else 46

/-! ## Views used to state the properties -/

/-- The test that `load_key`, `authenticate_block` and the last step of
`write_block_string` apply to a transmit: the call returned `SCARD_S_SUCCESS`, at least
two bytes came back, and `pbRecvBuffer[0]`, `pbRecvBuffer[1]` are `90 00`. -/
def step_ok (r : TransmitResult) : Prop :=
  r.rv = 0 ∧ 2 ≤ r.recv.length ∧ recvByte r 0 = 0x90 ∧ recvByte r 1 = 0x00

instance (r : TransmitResult) : Decidable (step_ok r) := by
  unfold step_ok
  infer_instance

/-- The frame `load_key` builds in `pbSendBuffer`. -/
def load_key_frame (key : List Nat) (key_location : Int) : List Nat :=
  [0xFF, 0x82, 0x20, (key_location % 256).toNat, 0x06] ++ hex_to_bytes key 6

/-- The frame `authenticate_block` builds in `pbSendBuffer`. -/
def authenticate_frame (block_number key_type key_location : Int) : List Nat :=
  [0xFF, 0x86, 0x00, 0x00, 0x05, 0x01, 0x00,
    (block_number % 256).toNat, (key_type % 256).toNat, (key_location % 256).toNat]

/-- The frame the last step of `write_block_string` builds in `pbSendBuffer`. -/
def write_frame (block_number : Int) (text : List Nat) : List Nat :=
  [0xFF, 0xD6, 0x00, (block_number % 256).toNat, 0x10] ++ (string_to_hex text 16).2

/-- The frame the last step of `read_block_string` sends. -/
def read_frame (block_number : Int) : List Nat :=
  [0xFF, 0xB0, 0x00, (block_number % 256).toNat, 0x10]

/-- A text made only of complete pairs of hexadecimal digits: each entry `(k, h, l)` is
`k` spaces followed by the digit characters `h` and `l`. -/
def hex_pairs_text : List (Nat × Nat × Nat) → List Nat
  | [] => []
  | (k, h, l) :: ps => List.replicate k 32 ++ h :: l :: hex_pairs_text ps

/-- The byte a pair of hexadecimal digit characters denotes. -/
def pair_value (p : Nat × Nat × Nat) : Nat :=
  16 * hexval p.2.1 + hexval p.2.2

/-- The block a text is written as: its first 16 character codes, right-padded with
zero bytes up to 16. -/
def pad_to_block (t : List Nat) : List Nat :=
  t.take 16 ++ List.replicate (16 - t.length) 0

/-- A transport that rejects the authenticate frame (INS 0x86) with the status word
`63 00` and answers every other frame with `90 00`. -/
def authFailTransport : Transmit Unit :=
  fun _ _ _ send => (if send.getD 1 0 = 0x86 then ⟨0, [0x63, 0x00]⟩ else ⟨0, [0x90, 0x00]⟩, ())

/-- A transport that answers every frame with one payload byte followed by the status
word `90 00`. -/
def payloadThenOkTransport : Transmit Unit :=
  fun _ _ _ _ => (⟨0, [0x41, 0x90, 0x00]⟩, ())

/-- A transport that answers every frame with `90 00` followed by the status word
`6A 82`. -/
def okThenErrorTransport : Transmit Unit :=
  fun _ _ _ _ => (⟨0, [0x90, 0x00, 0x6A, 0x82]⟩, ())

/-- A transport that answers the load-key and authenticate frames with `90 00` and every
data frame with one payload byte followed by `90 00`. -/
def dataPayloadTransport : Transmit Unit :=
  fun _ _ _ send =>
    (if send.getD 1 0 = 0x82 ∨ send.getD 1 0 = 0x86 then ⟨0, [0x90, 0x00]⟩
      else ⟨0, [0x41, 0x90, 0x00]⟩, ())

/-- A transport that keeps the data of the last update-binary frame (INS 0xD6) and
answers a read-binary frame (INS 0xB0) with these bytes followed by `90 00`; every other
frame is answered with `90 00`. Its state is the stored block. -/
def echoTransport : Transmit (List Nat) :=
  fun stored _ _ send =>
    if send.getD 1 0 = 0xD6 then (⟨0, [0x90, 0x00]⟩, send.drop 5)
    else if send.getD 1 0 = 0xB0 then (⟨0, stored ++ [0x90, 0x00]⟩, stored)
    else (⟨0, [0x90, 0x00]⟩, stored)

/-- A connected session in front of `echoTransport` holding the block `stored`. -/
def connectedEcho (stored : List Nat) : Globals (List Nat) :=
  ⟨1, 1, SCARD_PROTOCOL_T1, [], stored, []⟩

/-- A transport that answers every frame with the status word `69 86`. -/
def notSupportedTransport : Transmit Unit :=
  fun _ _ _ _ => (⟨0, [0x69, 0x86]⟩, ())

/-- A transport that answers the load-key and authenticate frames with `90 00` and whose
`SCardTransmit` fails with `0x80100016` on every other frame. -/
def readFailTransport : Transmit Unit :=
  fun _ _ _ send =>
    (if send.getD 1 0 = 0x82 ∨ send.getD 1 0 = 0x86 then ⟨0, [0x90, 0x00]⟩
      else ⟨0x80100016, []⟩, ())

/-- The response to the read-binary frame of `read_block_string`, when the call gets that
far. -/
def read_response {σ : Type} (tx : Transmit σ) (g : Globals σ) (key : List Nat)
    (block_number : Int) : TransmitResult :=
  (tx (authenticate_block tx (load_key tx g key 0).2 block_number 0x60 0).2.pcsc g.hCard
    (pioSendPci g) (read_frame block_number)).1

/-- The path of `read_block_string` that ends in the success text: the session is
connected, key-load and authenticate return 0, the read-binary transmit returns
`SCARD_S_SUCCESS` with at least two bytes, the last two being `90 00`. -/
def read_succeeds {σ : Type} (tx : Transmit σ) (g : Globals σ) (key : List Nat)
    (block_number : Int) : Prop :=
  g.hCard ≠ 0
    ∧ (load_key tx g key 0).1 = 0
    ∧ (authenticate_block tx (load_key tx g key 0).2 block_number 0x60 0).1 = 0
    ∧ (read_response tx g key block_number).rv = 0
    ∧ 2 ≤ (read_response tx g key block_number).recv.length
    ∧ recvByte (read_response tx g key block_number)
        ((read_response tx g key block_number).recv.length - 2) = 0x90
    ∧ recvByte (read_response tx g key block_number)
        ((read_response tx g key block_number).recv.length - 1) = 0x00

instance {σ : Type} (tx : Transmit σ) (g : Globals σ) (key : List Nat) (b : Int) :
    Decidable (read_succeeds tx g key b) := by
  unfold read_succeeds
  infer_instance

/-- The reader names of a list as a multi-string: each name followed by a NUL. -/
def multi_string : List (List Nat) → List Nat
  | [] => []
  | n :: ns => n ++ 0 :: multi_string ns

/-- The names of a list joined by single commas. -/
def comma_join : List (List Nat) → List Nat
  | [] => []
  | [n] => n
  | n :: m :: rest => n ++ [44] ++ comma_join (m :: rest)

/-- What the loop of `list_readers` appends for a list of names: each name, preceded by a
comma unless it is the first. -/
def join_from : Bool → List (List Nat) → List Nat
  | _, [] => []
  | first, n :: ns => (if first then [] else [44]) ++ n ++ join_from false ns

/-- A subsystem with the two readers `Reader1` and `Reader2`; every call succeeds, the
context handle is 1 and every connection gets the handle 7. -/
def twoReaders : Subsystem Unit where
  establishContext := fun _ _ => (⟨0, some 1⟩, ())
  listReaders := fun _ _ => (⟨0, lit "Reader1" ++ [0] ++ lit "Reader2" ++ [0, 0]⟩, ())
  connect := fun _ _ _ _ _ => (⟨0, some 7, some SCARD_PROTOCOL_T1⟩, ())
  disconnect := fun _ _ _ => ()
  releaseContext := fun _ _ => ()

/-- A subsystem whose `SCardListReaders` succeeds with an empty list of names. -/
def noReaders : Subsystem Unit where
  establishContext := fun _ _ => (⟨0, some 1⟩, ())
  listReaders := fun _ _ => (⟨0, [0]⟩, ())
  connect := fun _ _ _ _ _ => (⟨0, some 7, some SCARD_PROTOCOL_T1⟩, ())
  disconnect := fun _ _ _ => ()
  releaseContext := fun _ _ => ()

/-- The invariant of the session: at every point of the log at most one connection was
open, and a connection that is open now is the one whose handle `hCard` holds. -/
def log_inv (log : List PcscCall) (hCard : Nat) : Prop :=
  (∀ pre, pre <+: log → (live_connections pre).length ≤ 1)
    ∧ (live_connections log = [] ∨ (hCard ≠ 0 ∧ live_connections log = [hCard]))

/-- The messages with which the operations report a success in the last-error slot. -/
def success_messages : List (List Nat) :=
  [lit "Key loaded successfully", lit "Authentication successful", lit "Write successful",
    lit "Connected using protocol: T0", lit "Connected using protocol: T1"]

/-- A transport that answers the load-key frame (INS 0x82) with `90 00` followed by the
status word `6A 82`, and every other frame with `90 00`. -/
def keyLoadErrorTransport : Transmit Unit :=
  fun _ _ _ send =>
    (if send.getD 1 0 = 0x82 then ⟨0, [0x90, 0x00, 0x6A, 0x82]⟩ else ⟨0, [0x90, 0x00]⟩, ())

/-- A transport that answers the load-key and authenticate frames with `90 00` and every
data frame with `90 00` followed by the status word `6A 82`. -/
def dataErrorTransport : Transmit Unit :=
  fun _ _ _ send =>
    (if send.getD 1 0 = 0x82 ∨ send.getD 1 0 = 0x86 then ⟨0, [0x90, 0x00]⟩
      else ⟨0, [0x90, 0x00, 0x6A, 0x82]⟩, ())

/-- The last two bytes of a response of at least two bytes: its status word. -/
def status_word (recv : List Nat) : Nat × Nat :=
  (recv.getD (recv.length - 2) 0, recv.getD (recv.length - 1) 0)

/-! ## Lemmas on the codec and on the operations -/

theorem isxdigit_facts {c : Nat} (h : isxdigit c = true) :
    c ≠ 0 ∧ c ≠ 32 ∧ c ≠ 43 ∧ c ≠ 45 ∧ isspace c = false := by
  simp only [isxdigit, Bool.or_eq_true, Bool.and_eq_true, decide_eq_true_eq] at h
  refine ⟨by omega, by omega, by omega, by omega, ?_⟩
  simp only [isspace, Bool.or_eq_false_iff, Bool.and_eq_false_iff, beq_eq_false_iff_ne,
    decide_eq_false_iff_not]
  omega

theorem sscanf_2hhx_pair {h l : Nat} (hh : isxdigit h = true) (hl : isxdigit l = true)
    (rest : List Nat) : sscanf_2hhx (h :: l :: rest) = some (16 * hexval h + hexval l) := by
  obtain ⟨_, _, h43, h45, hsp⟩ := isxdigit_facts hh
  simp [sscanf_2hhx, List.dropWhile, hsp, h43, h45, hh, hl]

theorem hex_to_bytes_loop_full (m : Int) (p acc : List Nat) (h : ¬ ((acc.length : Int) < m)) :
    hex_to_bytes_loop m p acc = acc := by
  cases p with
  | nil => simp [hex_to_bytes_loop]
  | cons c rest => simp [hex_to_bytes_loop, h]

theorem hex_to_bytes_loop_nul (m : Int) (tail acc : List Nat) :
    hex_to_bytes_loop m (0 :: tail) acc = acc := by
  simp [hex_to_bytes_loop]

theorem hex_to_bytes_loop_space (m : Int) (rest acc : List Nat) :
    hex_to_bytes_loop m (32 :: rest) acc = hex_to_bytes_loop m rest acc := by
  by_cases h : (acc.length : Int) < m
  · simp [hex_to_bytes_loop, h]
  · rw [hex_to_bytes_loop_full m _ acc h, hex_to_bytes_loop_full m _ acc h]

theorem hex_to_bytes_loop_spaces (m : Int) (k : Nat) (rest acc : List Nat) :
    hex_to_bytes_loop m (List.replicate k 32 ++ rest) acc = hex_to_bytes_loop m rest acc := by
  induction k with
  | zero => simp
  | succ k ih => rw [List.replicate_succ, List.cons_append, hex_to_bytes_loop_space, ih]

theorem hex_to_bytes_loop_pair (m : Int) {h l : Nat} (hh : isxdigit h = true)
    (hl : isxdigit l = true) (rest acc : List Nat) (hlen : (acc.length : Int) < m) :
    hex_to_bytes_loop m (h :: l :: rest) acc
      = hex_to_bytes_loop m rest (acc ++ [16 * hexval h + hexval l]) := by
  obtain ⟨h0, h32, _, _, _⟩ := isxdigit_facts hh
  rw [hex_to_bytes_loop]
  simp [h0, h32, hlen, sscanf_2hhx_pair hh hl]

theorem hexDigitUpper_facts : ∀ d, d < 16 →
    isxdigit (hexDigitUpper d) = true ∧ hexval (hexDigitUpper d) = d := by
  decide

theorem hex_to_bytes_loop_fmt (m : Int) (b : Nat) (hb : b < 256) (rest acc : List Nat)
    (hlen : (acc.length : Int) < m) :
    hex_to_bytes_loop m (fmt_02X b ++ rest) acc = hex_to_bytes_loop m rest (acc ++ [b]) := by
  have h1 := hexDigitUpper_facts (b % 256 / 16) (by omega)
  have h2 := hexDigitUpper_facts (b % 16) (by omega)
  simp only [fmt_02X, List.cons_append, List.nil_append]
  rw [hex_to_bytes_loop_pair m h1.1 h2.1 rest acc hlen, h1.2, h2.2]
  congr 3
  omega

theorem hex_to_bytes_loop_encode_hex (m : Int) (tail : List Nat) :
    ∀ (b acc : List Nat), (∀ x ∈ b, x < 256) → ((acc.length + b.length : Nat) : Int) ≤ m →
      hex_to_bytes_loop m (encode_hex b ++ 0 :: tail) acc = acc ++ b
  | [], acc, _, _ => by simp [encode_hex, hex_to_bytes_loop_nul]
  | [x], acc, hb, hlen => by
    have hx : x < 256 := hb x (by simp)
    simp only [List.length_singleton] at hlen
    rw [encode_hex, hex_to_bytes_loop_fmt m x hx _ acc (by omega), hex_to_bytes_loop_nul]
  | x :: y :: rest, acc, hb, hlen => by
    have hx : x < 256 := hb x (by simp)
    simp only [List.length_cons] at hlen
    have hlen2 : (((acc ++ [x]).length + (y :: rest).length : Nat) : Int) ≤ m := by
      simp only [List.length_append, List.length_cons, List.length_nil]
      omega
    have hb2 : ∀ z ∈ y :: rest, z < 256 := fun z hz => hb z (List.mem_cons_of_mem x hz)
    rw [encode_hex, List.append_assoc, List.append_assoc,
      hex_to_bytes_loop_fmt m x hx _ acc (by omega), List.singleton_append,
      hex_to_bytes_loop_space,
      hex_to_bytes_loop_encode_hex m tail (y :: rest) (acc ++ [x]) hb2 hlen2]
    simp

theorem hex_to_bytes_loop_hex_dump (m : Int) (tail : List Nat) :
    ∀ (b acc : List Nat), (∀ x ∈ b, x < 256) → ((acc.length + b.length : Nat) : Int) ≤ m →
      hex_to_bytes_loop m (hex_dump b ++ 0 :: tail) acc = acc ++ b
  | [], acc, _, _ => by simp [hex_dump, hex_to_bytes_loop_nul]
  | x :: rest, acc, hb, hlen => by
    have hx : x < 256 := hb x (by simp)
    simp only [List.length_cons] at hlen
    have hlen2 : (((acc ++ [x]).length + rest.length : Nat) : Int) ≤ m := by
      simp only [List.length_append, List.length_cons, List.length_nil]
      omega
    have hb2 : ∀ z ∈ rest, z < 256 := fun z hz => hb z (List.mem_cons_of_mem x hz)
    rw [hex_dump, List.append_assoc, List.append_assoc,
      hex_to_bytes_loop_fmt m x hx _ acc (by omega), List.singleton_append,
      hex_to_bytes_loop_space,
      hex_to_bytes_loop_hex_dump m tail rest (acc ++ [x]) hb2 hlen2]
    simp

theorem bytes_to_string_loop_eq (m : Int) :
    ∀ (bs acc : List Nat), bytes_to_string_loop m bs acc
      = acc ++ ((bs.takeWhile (fun b => b != 0)).take ((m - 1).toNat - acc.length)).map
          display_char
  | [], acc => by simp [bytes_to_string_loop]
  | b :: rest, acc => by
    rw [bytes_to_string_loop]
    by_cases hj : (acc.length : Int) < m - 1
    · have hpos : (m - 1).toNat - acc.length = ((m - 1).toNat - (acc.length + 1)) + 1 := by
        omega
      by_cases hp : 32 ≤ b ∧ b ≤ 126
      · have hb0 : (b != 0) = true := by simp; omega
        rw [if_pos hj, if_pos hp, bytes_to_string_loop_eq m rest (acc ++ [b])]
        simp only [List.takeWhile_cons, hb0, if_true, List.length_append,
          List.length_singleton]
        rw [hpos, List.take_succ_cons]
        simp [display_char, hp]
      · by_cases hz : b = 0
        · subst hz
          simp [hj]
        · have hb0 : (b != 0) = true := by simp [hz]
          rw [if_pos hj, if_neg hp, if_neg hz, bytes_to_string_loop_eq m rest (acc ++ [46])]
          simp only [List.takeWhile_cons, hb0, if_true, List.length_append,
            List.length_singleton]
          rw [hpos, List.take_succ_cons]
          simp [display_char, hp]
    · have hz : (m - 1).toNat - acc.length = 0 := by omega
      rw [if_neg hj, hz]
      simp

theorem load_key_globals {σ : Type} (tx : Transmit σ) (g : Globals σ) (key : List Nat)
    (loc : Int) :
    (load_key tx g key loc).2.hCard = g.hCard
      ∧ (load_key tx g key loc).2.dwActiveProtocol = g.dwActiveProtocol
      ∧ (load_key tx g key loc).2.hContext = g.hContext := by
  unfold load_key SCardTransmit
  simp only []
  split_ifs <;> simp

theorem load_key_rejected {σ : Type} (tx : Transmit σ) (g : Globals σ) (key : List Nat)
    (loc : Int) (hk : (hex_to_bytes key 6).length ≠ 6) :
    (load_key tx g key loc).1 = -1 ∧ (load_key tx g key loc).2.log = g.log
      ∧ (load_key tx g key loc).2.pcsc = g.pcsc := by
  unfold load_key
  have hk2 : ((hex_to_bytes key 6).length : Int) ≠ 6 := by omega
  simp only []
  split_ifs <;> simp

theorem load_key_sent {σ : Type} (tx : Transmit σ) (g : Globals σ) (key : List Nat)
    (loc : Int) (hc : g.hCard ≠ 0) (hk : (hex_to_bytes key 6).length = 6) :
    (load_key tx g key loc).2.log
        = g.log ++ [PcscCall.transmit g.hCard (pioSendPci g) (load_key_frame key loc)]
      ∧ (load_key tx g key loc).2.pcsc
        = (tx g.pcsc g.hCard (pioSendPci g) (load_key_frame key loc)).2
      ∧ ((load_key tx g key loc).1 = 0
        ↔ step_ok (tx g.pcsc g.hCard (pioSendPci g) (load_key_frame key loc)).1)
      ∧ ((load_key tx g key loc).1 = 0 ∨ (load_key tx g key loc).1 = -1) := by
  unfold load_key SCardTransmit step_ok load_key_frame SCARD_S_SUCCESS
  have hk2 : ((hex_to_bytes key 6).length : Int) = 6 := by omega
  simp only [hc, hk2, if_false, ne_eq, not_true_eq_false]
  split_ifs <;> simp_all

theorem authenticate_block_globals {σ : Type} (tx : Transmit σ) (g : Globals σ)
    (b t loc : Int) :
    (authenticate_block tx g b t loc).2.hCard = g.hCard
      ∧ (authenticate_block tx g b t loc).2.dwActiveProtocol = g.dwActiveProtocol
      ∧ (authenticate_block tx g b t loc).2.hContext = g.hContext := by
  unfold authenticate_block SCardTransmit
  simp only []
  split_ifs <;> simp

theorem authenticate_block_sent {σ : Type} (tx : Transmit σ) (g : Globals σ)
    (b t loc : Int) (hc : g.hCard ≠ 0) :
    (authenticate_block tx g b t loc).2.log
        = g.log ++ [PcscCall.transmit g.hCard (pioSendPci g) (authenticate_frame b t loc)]
      ∧ (authenticate_block tx g b t loc).2.pcsc
        = (tx g.pcsc g.hCard (pioSendPci g) (authenticate_frame b t loc)).2
      ∧ ((authenticate_block tx g b t loc).1 = 0
        ↔ step_ok (tx g.pcsc g.hCard (pioSendPci g) (authenticate_frame b t loc)).1)
      ∧ ((authenticate_block tx g b t loc).1 = 0
        ∨ (authenticate_block tx g b t loc).1 = -1) := by
  unfold authenticate_block SCardTransmit step_ok authenticate_frame SCARD_S_SUCCESS
  simp only [hc, if_false]
  split_ifs <;> simp_all

theorem string_to_hex_16 (text : List Nat) :
    string_to_hex text 16
      = (16, (text.take (min (strlen text) 16)).map (fun c => c % 256)
              ++ List.replicate (16 - min (strlen text) 16) 0) := by
  unfold string_to_hex
  by_cases h : ((strlen text : Nat) : Int) > 16
  · have h2 : min (strlen text) 16 = 16 := by omega
    simp [h, h2]
  · have h2 : min (strlen text) 16 = strlen text := by omega
    have h3 : ((strlen text : Nat) : Int) < 16 ∨ ((strlen text : Nat) : Int) = 16 := by omega
    rcases h3 with h3 | h3
    · have h4 : ((16 : Int) - (strlen text : Nat)).toNat = 16 - strlen text := by omega
      simp [h, h2, h3, h4]
    · have h5 : strlen text = 16 := by omega
      simp [h5]

theorem string_to_hex_16_length (text : List Nat) :
    (string_to_hex text 16).2.length = 16 := by
  have hlen : strlen text ≤ text.length := by
    unfold strlen
    exact (List.takeWhile_sublist _).length_le
  rw [string_to_hex_16]
  simp only [List.length_append, List.length_map, List.length_take, List.length_replicate]
  omega

theorem write_block_string_steps {σ : Type} (tx : Transmit σ) (g : Globals σ)
    (key : List Nat) (b : Int) (text : List Nat) (hc : g.hCard ≠ 0) :
    ((load_key tx g key 0).1 ≠ 0 →
        (write_block_string tx g key b text).1 = -1
        ∧ (write_block_string tx g key b text).2.log = (load_key tx g key 0).2.log)
    ∧ ((load_key tx g key 0).1 = 0 →
        (authenticate_block tx (load_key tx g key 0).2 b 0x60 0).1 ≠ 0 →
        (write_block_string tx g key b text).1 = -2
        ∧ (write_block_string tx g key b text).2.log
          = (authenticate_block tx (load_key tx g key 0).2 b 0x60 0).2.log)
    ∧ ((load_key tx g key 0).1 = 0 →
        (authenticate_block tx (load_key tx g key 0).2 b 0x60 0).1 = 0 →
        (write_block_string tx g key b text).2.log
          = (authenticate_block tx (load_key tx g key 0).2 b 0x60 0).2.log
            ++ [PcscCall.transmit g.hCard (pioSendPci g) (write_frame b text)]
        ∧ ((write_block_string tx g key b text).1 = 0 ↔
            step_ok (tx (authenticate_block tx (load_key tx g key 0).2 b 0x60 0).2.pcsc
              g.hCard (pioSendPci g) (write_frame b text)).1)
        ∧ ((write_block_string tx g key b text).1 = -3 ↔
            (tx (authenticate_block tx (load_key tx g key 0).2 b 0x60 0).2.pcsc
              g.hCard (pioSendPci g) (write_frame b text)).1.rv ≠ 0)
        ∧ ((write_block_string tx g key b text).1 = -4 ↔
            (tx (authenticate_block tx (load_key tx g key 0).2 b 0x60 0).2.pcsc
              g.hCard (pioSendPci g) (write_frame b text)).1.rv = 0
            ∧ ¬ step_ok (tx (authenticate_block tx (load_key tx g key 0).2 b 0x60 0).2.pcsc
              g.hCard (pioSendPci g) (write_frame b text)).1)) := by
  have hg1 := load_key_globals tx g key 0
  have hg2 := authenticate_block_globals tx (load_key tx g key 0).2 b 0x60 0
  have hpci : pioSendPci (authenticate_block tx (load_key tx g key 0).2 b 0x60 0).2
      = pioSendPci g := by
    unfold pioSendPci
    rw [hg2.2.1, hg1.2.1]
  have hcard : (authenticate_block tx (load_key tx g key 0).2 b 0x60 0).2.hCard = g.hCard := by
    rw [hg2.1, hg1.1]
  have hdata := string_to_hex_16_length text
  have hfst : (string_to_hex text 16).1 = 16 := by rw [string_to_hex_16]
  refine ⟨?_, ?_, ?_⟩
  · intro h1
    unfold write_block_string
    simp [hc, h1]
  · intro h1 h2
    unfold write_block_string
    simp [hc, h1, h2]
  · intro h1 h2
    have htake : List.take 16 (string_to_hex text 16).2 = (string_to_hex text 16).2 :=
      List.take_of_length_le (by omega)
    have hsplit : string_to_hex text 16 = (16, (string_to_hex text 16).2) :=
      Prod.ext hfst rfl
    unfold write_block_string write_frame
    simp only [hc, h1, h2, if_false, ne_eq, not_true_eq_false]
    generalize (string_to_hex text 16).2 = D at htake hsplit
    rw [hsplit]
    unfold SCardTransmit
    have e1 : ((16 : Int) % 256).toNat = 16 := rfl
    have e2 : (16 : Int).toNat = 16 := rfl
    simp only [hpci, hcard, e1, e2, htake]
    generalize tx (authenticate_block tx (load_key tx g key 0).2 b 0x60 0).2.pcsc g.hCard
      (pioSendPci g) ([0xFF, 0xD6, 0x00, (b % 256).toNat, 16] ++ D) = r
    unfold step_ok SCARD_S_SUCCESS
    split_ifs <;> simp_all

theorem read_block_string_steps {σ : Type} (tx : Transmit σ) (g : Globals σ)
    (key : List Nat) (b : Int) (hc : g.hCard ≠ 0) :
    ((load_key tx g key 0).1 ≠ 0 →
        (read_block_string tx g key b).2.log = (load_key tx g key 0).2.log)
    ∧ ((load_key tx g key 0).1 = 0 →
        (authenticate_block tx (load_key tx g key 0).2 b 0x60 0).1 ≠ 0 →
        (read_block_string tx g key b).2.log
          = (authenticate_block tx (load_key tx g key 0).2 b 0x60 0).2.log)
    ∧ ((load_key tx g key 0).1 = 0 →
        (authenticate_block tx (load_key tx g key 0).2 b 0x60 0).1 = 0 →
        (read_block_string tx g key b).2.log
          = (authenticate_block tx (load_key tx g key 0).2 b 0x60 0).2.log
            ++ [PcscCall.transmit g.hCard (pioSendPci g) (read_frame b)]) := by
  have hg1 := load_key_globals tx g key 0
  have hg2 := authenticate_block_globals tx (load_key tx g key 0).2 b 0x60 0
  have hpci : pioSendPci (authenticate_block tx (load_key tx g key 0).2 b 0x60 0).2
      = pioSendPci g := by
    unfold pioSendPci
    rw [hg2.2.1, hg1.2.1]
  have hcard : (authenticate_block tx (load_key tx g key 0).2 b 0x60 0).2.hCard = g.hCard := by
    rw [hg2.1, hg1.1]
  refine ⟨?_, ?_, ?_⟩
  · intro h1
    unfold read_block_string
    simp [hc, h1]
  · intro h1 h2
    unfold read_block_string
    simp [hc, h1, h2]
  · intro h1 h2
    unfold read_block_string read_frame
    simp only [hc, h1, h2, if_false, ne_eq, not_true_eq_false]
    unfold SCardTransmit
    simp only [hpci, hcard]
    split_ifs <;> rfl

/-- The two exchanges that open `read_block_string` and `write_block_string`, seen from
the transport: what is logged, and when each step reports success. -/
theorem key_and_auth_steps {σ : Type} (tx : Transmit σ) (g : Globals σ) (key : List Nat)
    (b : Int) (hc : g.hCard ≠ 0) (hk : (hex_to_bytes key 6).length = 6) :
    (load_key tx g key 0).2.log
        = g.log ++ [PcscCall.transmit g.hCard (pioSendPci g) (load_key_frame key 0)]
      ∧ ((load_key tx g key 0).1 = 0
        ↔ step_ok (tx g.pcsc g.hCard (pioSendPci g) (load_key_frame key 0)).1)
      ∧ ((load_key tx g key 0).1 = 0 ∨ (load_key tx g key 0).1 = -1)
      ∧ (authenticate_block tx (load_key tx g key 0).2 b 0x60 0).2.log
        = g.log ++ [PcscCall.transmit g.hCard (pioSendPci g) (load_key_frame key 0),
            PcscCall.transmit g.hCard (pioSendPci g) (authenticate_frame b 0x60 0)]
      ∧ ((authenticate_block tx (load_key tx g key 0).2 b 0x60 0).1 = 0
        ↔ step_ok (tx (tx g.pcsc g.hCard (pioSendPci g) (load_key_frame key 0)).2
            g.hCard (pioSendPci g) (authenticate_frame b 0x60 0)).1)
      ∧ ((authenticate_block tx (load_key tx g key 0).2 b 0x60 0).1 = 0
        ∨ (authenticate_block tx (load_key tx g key 0).2 b 0x60 0).1 = -1)
      ∧ (authenticate_block tx (load_key tx g key 0).2 b 0x60 0).2.pcsc
        = (tx (tx g.pcsc g.hCard (pioSendPci g) (load_key_frame key 0)).2
            g.hCard (pioSendPci g) (authenticate_frame b 0x60 0)).2 := by
  obtain ⟨l1, l2, l3, l4⟩ := load_key_sent tx g key 0 hc hk
  have hg1 := load_key_globals tx g key 0
  have hc1 : (load_key tx g key 0).2.hCard ≠ 0 := by rw [hg1.1]; exact hc
  have hpci : pioSendPci (load_key tx g key 0).2 = pioSendPci g := by
    unfold pioSendPci
    rw [hg1.2.1]
  obtain ⟨a1, a2, a3, a4⟩ := authenticate_block_sent tx (load_key tx g key 0).2 b 0x60 0 hc1
  rw [hg1.1, hpci] at a1 a2 a3
  rw [l2] at a2 a3
  refine ⟨l1, l3, l4, ?_, a3, a4, a2⟩
  rw [a1, l1]
  simp

theorem hex_to_bytes_loop_pairs (m : Int) (j : Nat) (tail : List Nat) :
    ∀ (ps : List (Nat × Nat × Nat)) (acc : List Nat),
      (∀ p ∈ ps, isxdigit p.2.1 = true ∧ isxdigit p.2.2 = true) →
      hex_to_bytes_loop m (hex_pairs_text ps ++ (List.replicate j 32 ++ 0 :: tail)) acc
        = acc ++ (ps.map pair_value).take (m.toNat - acc.length)
  | [], acc, _ => by
    simp [hex_pairs_text, hex_to_bytes_loop_spaces, hex_to_bytes_loop_nul]
  | (k, h, l) :: ps, acc, hps => by
    have hd := hps (k, h, l) (by simp)
    have hps2 : ∀ p ∈ ps, isxdigit p.2.1 = true ∧ isxdigit p.2.2 = true :=
      fun p hp => hps p (List.mem_cons_of_mem _ hp)
    by_cases hlen : (acc.length : Int) < m
    · have hpos : m.toNat - acc.length = (m.toNat - (acc.length + 1)) + 1 := by omega
      rw [hex_pairs_text, List.append_assoc, hex_to_bytes_loop_spaces, List.cons_append,
        List.cons_append, hex_to_bytes_loop_pair m hd.1 hd.2 _ acc hlen,
        hex_to_bytes_loop_pairs m j tail ps _ hps2]
      simp only [List.length_append, List.length_cons, List.length_nil, List.map_cons]
      rw [hpos, List.take_succ_cons]
      simp [pair_value]
    · have hz : m.toNat - acc.length = 0 := by omega
      rw [hex_to_bytes_loop_full m _ acc hlen, hz]
      simp

theorem strlen_text (t tail : List Nat) (ht : ∀ c ∈ t, 1 ≤ c ∧ c ≤ 255) :
    strlen (t ++ 0 :: tail) = t.length := by
  unfold strlen
  induction t with
  | nil => simp
  | cons c rest ih =>
    have hc := ht c (by simp)
    have hne : (c != 0) = true := by simp; omega
    have ih2 := ih (fun d hd => ht d (List.mem_cons_of_mem _ hd))
    simp only [List.cons_append, List.takeWhile_cons, hne, if_true, List.length_cons, ih2]

theorem map_mod_text (t : List Nat) (ht : ∀ c ∈ t, 1 ≤ c ∧ c ≤ 255) :
    t.map (fun c => c % 256) = t := by
  induction t with
  | nil => rfl
  | cons c rest ih =>
    have hc := ht c (by simp)
    have ih2 := ih (fun d hd => ht d (List.mem_cons_of_mem _ hd))
    have hm : c % 256 = c := by omega
    simp only [List.map_cons, ih2, hm]

theorem string_to_hex_pad (t tail : List Nat) (ht : ∀ c ∈ t, 1 ≤ c ∧ c ≤ 255) :
    string_to_hex (t ++ 0 :: tail) 16 = (16, pad_to_block t) := by
  rw [string_to_hex_16, strlen_text t tail ht]
  unfold pad_to_block
  have h1 : List.take (min t.length 16) (t ++ 0 :: tail) = List.take 16 t := by
    rw [List.take_append_of_le_length (by omega)]
    by_cases h : t.length ≤ 16
    · rw [List.take_of_length_le (by omega), List.take_of_length_le h]
    · rw [show min t.length 16 = 16 by omega]
  have h2 : (List.take 16 t).map (fun c => c % 256) = List.take 16 t :=
    map_mod_text _ (fun c hc => ht c (List.mem_of_mem_take hc))
  have h3 : 16 - min t.length 16 = 16 - t.length := by omega
  rw [h1, h2, h3]

theorem connected_of_load_key {σ : Type} (tx : Transmit σ) (g : Globals σ) (key : List Nat)
    (slot : Int) (h : (load_key tx g key slot).1 = 0) : g.hCard ≠ 0 := by
  intro hc
  simp [load_key, hc] at h

theorem hex_to_bytes_loop_extends (m : Int) :
    ∀ (n : Nat) (p acc : List Nat), p.length ≤ n →
      ∃ more, hex_to_bytes_loop m p acc = acc ++ more
  | 0, p, acc, hn => by
    have hp : p = [] := List.length_eq_zero.mp (by omega)
    subst hp
    exact ⟨[], by simp [hex_to_bytes_loop]⟩
  | n + 1, [], acc, _ => ⟨[], by simp [hex_to_bytes_loop]⟩
  | n + 1, c :: rest, acc, hn => by
    have hr : rest.length ≤ n := by simp only [List.length_cons] at hn; omega
    rw [hex_to_bytes_loop]
    split_ifs with h1 h2
    · exact hex_to_bytes_loop_extends m n rest acc hr
    · cases hs : sscanf_2hhx (c :: rest) with
      | none => exact ⟨[], by simp⟩
      | some b =>
        cases rest with
        | nil => exact ⟨[b], rfl⟩
        | cons d rest2 =>
          have hr2 : rest2.length ≤ n := by simp only [List.length_cons] at hr; omega
          obtain ⟨more, hm⟩ := hex_to_bytes_loop_extends m n rest2 (acc ++ [b]) hr2
          exact ⟨b :: more, by simp only [hm, List.append_assoc, List.singleton_append]⟩
    · exact ⟨[], by simp⟩

theorem display_char_range (b : Nat) : 32 ≤ display_char b ∧ display_char b ≤ 126 := by
  unfold display_char
  split_ifs with h
  · exact h
  · omega

theorem read_block_string_success {σ : Type} (tx : Transmit σ) (g : Globals σ)
    (key : List Nat) (b : Int) (hs : read_succeeds tx g key b) :
    (read_block_string tx g key b).1
      = bytes_to_string (read_response tx g key b).recv
          (((read_response tx g key b).recv.length : Int) - 2) 128
        ++ lit "\n[Hex: "
        ++ hex_dump ((read_response tx g key b).recv.take
            ((read_response tx g key b).recv.length - 2))
        ++ lit "]" := by
  obtain ⟨hc, h1, h2, hrv, hlen, ha, hb⟩ := hs
  have hg1 := load_key_globals tx g key 0
  have hg2 := authenticate_block_globals tx (load_key tx g key 0).2 b 0x60 0
  have hpci : pioSendPci (authenticate_block tx (load_key tx g key 0).2 b 0x60 0).2
      = pioSendPci g := by
    unfold pioSendPci
    rw [hg2.2.1, hg1.2.1]
  have hcard : (authenticate_block tx (load_key tx g key 0).2 b 0x60 0).2.hCard = g.hCard := by
    rw [hg2.1, hg1.1]
  unfold read_response read_frame at hrv hlen ha hb ⊢
  unfold read_block_string
  simp only [hc, h1, h2, if_false, ne_eq, not_true_eq_false]
  unfold SCardTransmit SCARD_S_SUCCESS
  simp only [hpci, hcard]
  generalize tx (authenticate_block tx (load_key tx g key 0).2 b 0x60 0).2.pcsc g.hCard
    (pioSendPci g) [0xFF, 0xB0, 0x00, (b % 256).toNat, 0x10] = r at hrv hlen ha hb ⊢
  have hnl : ¬ r.1.recv.length < 2 := by omega
  simp [hrv, hnl, ha, hb]

theorem read_block_string_failure {σ : Type} (tx : Transmit σ) (g : Globals σ)
    (key : List Nat) (b : Int) (hs : ¬ read_succeeds tx g key b) :
    lit "ERROR: " <+: (read_block_string tx g key b).1 := by
  have hg1 := load_key_globals tx g key 0
  have hg2 := authenticate_block_globals tx (load_key tx g key 0).2 b 0x60 0
  have hpci : pioSendPci (authenticate_block tx (load_key tx g key 0).2 b 0x60 0).2
      = pioSendPci g := by
    unfold pioSendPci
    rw [hg2.2.1, hg1.2.1]
  have hcard : (authenticate_block tx (load_key tx g key 0).2 b 0x60 0).2.hCard = g.hCard := by
    rw [hg2.1, hg1.1]
  have e1 : lit "ERROR: Not connected to card" = lit "ERROR: " ++ lit "Not connected to card" := by
    decide
  have e2 : lit "ERROR: Read failed (0x" = lit "ERROR: " ++ lit "Read failed (0x" := by decide
  have e3 : lit "ERROR: Invalid response" = lit "ERROR: " ++ lit "Invalid response" := by decide
  have e4 : lit "ERROR: Read failed [SW=" = lit "ERROR: " ++ lit "Read failed [SW=" := by decide
  unfold read_succeeds read_response read_frame at hs
  unfold read_block_string
  by_cases hc : g.hCard = 0
  · simp only [hc, if_true, e1]
    exact List.prefix_append _ _
  · by_cases h1 : (load_key tx g key 0).1 = 0
    · by_cases h2 : (authenticate_block tx (load_key tx g key 0).2 b 0x60 0).1 = 0
      · simp only [hc, h1, h2, if_false, ne_eq, not_true_eq_false, not_false_eq_true,
          true_and] at hs ⊢
        unfold SCardTransmit SCARD_S_SUCCESS
        simp only [hpci, hcard]
        generalize tx (authenticate_block tx (load_key tx g key 0).2 b 0x60 0).2.pcsc g.hCard
          (pioSendPci g) [0xFF, 0xB0, 0x00, (b % 256).toNat, 0x10] = r at hs ⊢
        by_cases hrv : r.1.rv = 0
        · by_cases hl : r.1.recv.length < 2
          · simp only [hrv, hl, if_true, if_false, ne_eq, not_true_eq_false, e3]
            exact List.prefix_append _ _
          · have hsw : recvByte r.1 (r.1.recv.length - 2) ≠ 0x90
                ∨ recvByte r.1 (r.1.recv.length - 1) ≠ 0x00 := by
              by_contra hcon
              push_neg at hcon
              exact hs ⟨hrv, by omega, hcon.1, hcon.2⟩
            simp only [hrv, hl, hsw, if_true, if_false, ne_eq, not_true_eq_false, e4,
              List.append_assoc]
            exact List.prefix_append _ _
        · simp only [hrv, if_true, ne_eq, not_false_eq_true, e2, List.append_assoc]
          exact List.prefix_append _ _
      · simp only [hc, h1, h2, if_false, if_true, ne_eq, not_true_eq_false,
          not_false_eq_true]
        exact List.prefix_append _ _
    · simp only [hc, h1, if_false, if_true, ne_eq, not_false_eq_true]
      exact List.prefix_append _ _

theorem write_block_string_after {σ : Type} (tx : Transmit σ) (g : Globals σ)
    (key : List Nat) (b : Int) (text : List Nat) (hc : g.hCard ≠ 0)
    (h1 : (load_key tx g key 0).1 = 0)
    (h2 : (authenticate_block tx (load_key tx g key 0).2 b 0x60 0).1 = 0) :
    (write_block_string tx g key b text).2.pcsc
        = (tx (authenticate_block tx (load_key tx g key 0).2 b 0x60 0).2.pcsc g.hCard
            (pioSendPci g) (write_frame b text)).2
      ∧ (write_block_string tx g key b text).2.hCard = g.hCard
      ∧ (write_block_string tx g key b text).2.dwActiveProtocol = g.dwActiveProtocol := by
  have hg1 := load_key_globals tx g key 0
  have hg2 := authenticate_block_globals tx (load_key tx g key 0).2 b 0x60 0
  have hpci : pioSendPci (authenticate_block tx (load_key tx g key 0).2 b 0x60 0).2
      = pioSendPci g := by
    unfold pioSendPci
    rw [hg2.2.1, hg1.2.1]
  have hcard : (authenticate_block tx (load_key tx g key 0).2 b 0x60 0).2.hCard = g.hCard := by
    rw [hg2.1, hg1.1]
  have hproto : (authenticate_block tx (load_key tx g key 0).2 b 0x60 0).2.dwActiveProtocol
      = g.dwActiveProtocol := by
    rw [hg2.2.1, hg1.2.1]
  have hdata := string_to_hex_16_length text
  have hfst : (string_to_hex text 16).1 = 16 := by rw [string_to_hex_16]
  have htake : List.take 16 (string_to_hex text 16).2 = (string_to_hex text 16).2 :=
    List.take_of_length_le (by omega)
  have hsplit : string_to_hex text 16 = (16, (string_to_hex text 16).2) :=
    Prod.ext hfst rfl
  unfold write_block_string write_frame
  simp only [hc, h1, h2, if_false, ne_eq, not_true_eq_false]
  generalize (string_to_hex text 16).2 = D at htake hsplit
  rw [hsplit]
  unfold SCardTransmit
  have e1 : ((16 : Int) % 256).toNat = 16 := rfl
  have e2 : (16 : Int).toNat = 16 := rfl
  simp only [hpci, hcard, e1, e2, htake]
  generalize tx (authenticate_block tx (load_key tx g key 0).2 b 0x60 0).2.pcsc g.hCard
    (pioSendPci g) ([0xFF, 0xD6, 0x00, (b % 256).toNat, 16] ++ D) = r
  split_ifs <;> simp [hcard, hproto]

theorem takeWhile_text_zeros (a : List Nat) (k : Nat) (ha : ∀ c ∈ a, c ≠ 0) :
    (a ++ List.replicate k 0).takeWhile (fun c => c != 0) = a := by
  induction a with
  | nil =>
    cases k with
    | zero => rfl
    | succ k => simp [List.replicate_succ]
  | cons c rest ih =>
    have hc : (c != 0) = true := by simpa using ha c (by simp)
    have ih2 := ih (fun d hd => ha d (List.mem_cons_of_mem _ hd))
    simp only [List.cons_append, List.takeWhile_cons, hc, if_true, ih2]

theorem map_display_char_printable (a : List Nat) (ha : ∀ c ∈ a, 32 ≤ c ∧ c ≤ 126) :
    a.map display_char = a := by
  induction a with
  | nil => rfl
  | cons c rest ih =>
    have hc := ha c (by simp)
    have ih2 := ih (fun d hd => ha d (List.mem_cons_of_mem _ hd))
    simp only [List.map_cons, ih2, display_char, hc, and_self, if_true]

theorem pad_to_block_length (t : List Nat) : (pad_to_block t).length = 16 := by
  unfold pad_to_block
  simp only [List.length_append, List.length_take, List.length_replicate]
  omega

theorem bytes_to_string_padded (t : List Nat) (ht : ∀ c ∈ t, 32 ≤ c ∧ c ≤ 126) :
    bytes_to_string (pad_to_block t ++ [0x90, 0x00]) 16 128 = t.take 16 := by
  have hlen := pad_to_block_length t
  have htk : ∀ c ∈ t.take 16, 32 ≤ c ∧ c ≤ 126 := fun c hc => ht c (List.mem_of_mem_take hc)
  have hnz : ∀ c ∈ t.take 16, c ≠ 0 := fun c hc => by have := (htk c hc).1; omega
  have hl16 : (t.take 16).length ≤ 16 := by
    rw [List.length_take]
    omega
  unfold bytes_to_string
  rw [show ((16 : Int)).toNat = 16 from rfl, List.take_append_of_le_length (by omega),
    List.take_of_length_le (by omega), bytes_to_string_loop_eq]
  unfold pad_to_block
  rw [takeWhile_text_zeros _ _ hnz, List.take_of_length_le (by simp only [List.length_nil]; omega),
    map_display_char_printable _ htk]
  rfl

theorem getD_append_pair (a : List Nat) (x y d : Nat) :
    (a ++ [x, y]).getD a.length d = x ∧ (a ++ [x, y]).getD (a.length + 1) d = y := by
  induction a with
  | nil => exact ⟨rfl, rfl⟩
  | cons c rest ih => simpa using ih

theorem echoTransport_load_key (s : List Nat) (h pci : Nat) (key : List Nat) (slot : Int) :
    echoTransport s h pci (load_key_frame key slot) = (⟨0, [0x90, 0x00]⟩, s) := by
  simp [echoTransport, load_key_frame]

theorem echoTransport_authenticate (s : List Nat) (h pci : Nat) (b t slot : Int) :
    echoTransport s h pci (authenticate_frame b t slot) = (⟨0, [0x90, 0x00]⟩, s) := by
  simp [echoTransport, authenticate_frame]

theorem echoTransport_write (s : List Nat) (h pci : Nat) (b : Int) (text : List Nat) :
    echoTransport s h pci (write_frame b text)
      = (⟨0, [0x90, 0x00]⟩, (string_to_hex text 16).2) := by
  simp [echoTransport, write_frame]

theorem echoTransport_read (s : List Nat) (h pci : Nat) (b : Int) :
    echoTransport s h pci (read_frame b) = (⟨0, s ++ [0x90, 0x00]⟩, s) := by
  simp [echoTransport, read_frame]

theorem echo_read_succeeds (g : Globals (List Nat)) (key : List Nat) (b : Int)
    (hc : g.hCard ≠ 0) (hk : (hex_to_bytes key 6).length = 6) :
    read_succeeds echoTransport g key b
      ∧ read_response echoTransport g key b = ⟨0, g.pcsc ++ [0x90, 0x00]⟩ := by
  obtain ⟨_, k2, _, _, k5, _, k7⟩ := key_and_auth_steps echoTransport g key b hc hk
  rw [echoTransport_load_key] at k2 k5 k7
  rw [echoTransport_authenticate] at k5 k7
  have ok : step_ok ⟨0, [0x90, 0x00]⟩ := by decide
  have h1 := k2.mpr ok
  have h2 := k5.mpr ok
  have hr : read_response echoTransport g key b = ⟨0, g.pcsc ++ [0x90, 0x00]⟩ := by
    unfold read_response
    rw [k7, echoTransport_read]
  have hlen : (g.pcsc ++ [0x90, 0x00]).length = g.pcsc.length + 2 := by simp
  refine ⟨⟨hc, h1, h2, ?_, ?_, ?_, ?_⟩, hr⟩
  · rw [hr]
  · rw [hr]
    simp
  · rw [hr]
    unfold recvByte
    simp only [hlen, Nat.add_sub_cancel]
    exact (getD_append_pair g.pcsc 0x90 0x00 0).1
  · rw [hr]
    unfold recvByte
    simp only [hlen, show g.pcsc.length + 2 - 1 = g.pcsc.length + 1 by omega]
    exact (getD_append_pair g.pcsc 0x90 0x00 0).2

theorem hex_dump_encode_hex : ∀ (p : List Nat), p ≠ [] → hex_dump p = encode_hex p ++ [32]
  | [], h => absurd rfl h
  | [x], _ => by simp [hex_dump, encode_hex]
  | x :: y :: rest, _ => by
    rw [hex_dump, hex_dump_encode_hex (y :: rest) (by simp), encode_hex]
    simp

theorem bytes_to_string_payload (p : List Nat) (hlen : p.length = 16) :
    bytes_to_string (p ++ [0x90, 0x00]) 16 128
      = (p.takeWhile (fun c => c != 0)).map display_char := by
  have h1 : (p.takeWhile (fun c => c != 0)).length ≤ p.length :=
    (List.takeWhile_sublist _).length_le
  unfold bytes_to_string
  rw [show ((16 : Int)).toNat = 16 from rfl, List.take_append_of_le_length (le_of_eq hlen.symm),
    List.take_of_length_le (le_of_eq hlen), bytes_to_string_loop_eq,
    List.take_of_length_le (by simp only [List.length_nil]; omega)]
  rfl

theorem read_block_string_payload {σ : Type} (tx : Transmit σ) (g : Globals σ)
    (key : List Nat) (b : Int) (p : List Nat) (hs : read_succeeds tx g key b)
    (hp : (read_response tx g key b).recv = p ++ [0x90, 0x00]) (hlen : p.length = 16) :
    (read_block_string tx g key b).1
      = (p.takeWhile (fun c => c != 0)).map display_char ++ lit "\n[Hex: " ++ hex_dump p
        ++ lit "]" := by
  have hl : (p ++ [0x90, 0x00]).length = 18 := by
    simp only [List.length_append, hlen, List.length_cons, List.length_nil]
  have htk : List.take 16 (p ++ [0x90, 0x00]) = p := by
    rw [List.take_append_of_le_length (le_of_eq hlen.symm),
      List.take_of_length_le (le_of_eq hlen)]
  rw [read_block_string_success tx g key b hs, hp]
  simp only [hl]
  rw [show ((18 : Nat) : Int) - 2 = 16 from rfl, show (18 : Nat) - 2 = 16 from rfl,
    bytes_to_string_payload p hlen, htk]

theorem prefix_before_separator (x : Nat) (r : List Nat) :
    ∀ (d E : List Nat), (∀ c ∈ E, c ≠ x) → (E <+: d ++ x :: r ↔ E <+: d)
  | [], [], _ => by simp
  | [], e :: E, hE => by
    have he : e ≠ x := hE e (by simp)
    simp [he]
  | a :: d, [], _ => by simp
  | a :: d, e :: E, hE => by
    have ih := prefix_before_separator x r d E (fun c hc => hE c (List.mem_cons_of_mem _ hc))
    rw [List.cons_append, List.cons_prefix_cons, List.cons_prefix_cons, ih]

theorem prefix_of_display (E : List Nat) (hE : ∀ c ∈ E, 32 ≤ c ∧ c ≤ 126 ∧ c ≠ 46) :
    ∀ (p : List Nat),
      (E <+: (p.takeWhile (fun c => c != 0)).map display_char ↔ E <+: p) := by
  induction E with
  | nil => intro p; simp
  | cons e E ih =>
    have he := hE e (by simp)
    have ih2 := ih (fun c hc => hE c (List.mem_cons_of_mem _ hc))
    intro p
    cases p with
    | nil => simp
    | cons b rest =>
      by_cases hb : b = 0
      · subst hb
        have : e ≠ 0 := by omega
        simp [this]
      · have hb0 : (b != 0) = true := by simp [hb]
        have hd : e = display_char b ↔ e = b := by
          unfold display_char
          split_ifs with hpr
          · exact Iff.rfl
          · constructor
            · intro h
              exact absurd h he.2.2
            · intro h
              exact absurd (h ▸ ⟨he.1, he.2.1⟩) hpr
        simp only [List.takeWhile_cons, hb0, if_true, List.map_cons, List.cons_prefix_cons,
          ih2 rest, hd]

theorem name_in_memory (n rest : List Nat) (hn : ∀ c ∈ n, c ≠ 0) :
    (n ++ 0 :: rest).takeWhile (fun c => c != 0) = n
      ∧ strlen (n ++ 0 :: rest) = n.length
      ∧ (n ++ 0 :: rest).drop (n.length + 1) = rest := by
  have h1 : (n ++ 0 :: rest).takeWhile (fun c => c != 0) = n := by
    induction n with
    | nil => simp
    | cons c r ih =>
      have hc : (c != 0) = true := by simpa using hn c (by simp)
      have ih2 := ih (fun d hd => hn d (List.mem_cons_of_mem _ hd))
      simp only [List.cons_append, List.takeWhile_cons, hc, if_true, ih2]
  refine ⟨h1, ?_, ?_⟩
  · unfold strlen
    rw [h1]
  · rw [show n ++ 0 :: rest = (n ++ [0]) ++ rest by simp]
    exact List.drop_left' (by simp)

theorem list_readers_loop_fuel :
    ∀ (f1 f2 : Nat) (p temp : List Nat) (first : Bool), p.length ≤ f1 → p.length ≤ f2 →
      list_readers_loop f1 p temp first = list_readers_loop f2 p temp first
  | 0, f2, p, temp, first, h1, _ => by
    have hp : p = [] := List.length_eq_zero.mp (by omega)
    subst hp
    cases f2 with
    | zero => rfl
    | succ b => simp [list_readers_loop]
  | a + 1, 0, p, temp, first, _, h2 => by
    have hp : p = [] := List.length_eq_zero.mp (by omega)
    subst hp
    simp [list_readers_loop]
  | a + 1, b + 1, p, temp, first, h1, h2 => by
    rw [list_readers_loop, list_readers_loop]
    by_cases hh : p.headD 0 ≠ 0
    · have hlen : (p.drop (strlen p + 1)).length + 1 ≤ p.length := by
        rw [List.length_drop]
        cases p with
        | nil => simp at hh
        | cons c r => simp only [List.length_cons]; omega
      rw [if_pos hh, if_pos hh]
      exact list_readers_loop_fuel a b _ _ false (by omega) (by omega)
    · rw [if_neg hh, if_neg hh]

theorem list_readers_loop_names (tail : List Nat) :
    ∀ (names : List (List Nat)) (fuel : Nat) (temp : List Nat) (first : Bool),
      (∀ n ∈ names, n ≠ [] ∧ ∀ c ∈ n, c ≠ 0) →
      (multi_string names ++ 0 :: tail).length ≤ fuel →
      list_readers_loop fuel (multi_string names ++ 0 :: tail) temp first
        = temp ++ join_from first names
  | [], 0, temp, first, _, _ => by simp [list_readers_loop, join_from]
  | [], fuel + 1, temp, first, _, _ => by simp [list_readers_loop, multi_string, join_from]
  | n :: ns, 0, temp, first, _, hf => by
    simp [multi_string] at hf
  | n :: ns, fuel + 1, temp, first, hn, hf => by
    obtain ⟨hne, hnz⟩ := hn n (by simp)
    have hns : ∀ m ∈ ns, m ≠ [] ∧ ∀ c ∈ m, c ≠ 0 :=
      fun m hm => hn m (List.mem_cons_of_mem _ hm)
    have hmem : multi_string (n :: ns) ++ 0 :: tail
        = n ++ 0 :: (multi_string ns ++ 0 :: tail) := by
      simp [multi_string]
    obtain ⟨k1, k2, k3⟩ := name_in_memory n (multi_string ns ++ 0 :: tail) hnz
    have hhead : (n ++ 0 :: (multi_string ns ++ 0 :: tail)).headD 0 ≠ 0 := by
      cases n with
      | nil => exact absurd rfl hne
      | cons c r => simpa using hnz c (by simp)
    have hf2 : (multi_string ns ++ 0 :: tail).length ≤ fuel := by
      rw [hmem] at hf
      simp only [List.length_append, List.length_cons] at hf ⊢
      omega
    rw [hmem, list_readers_loop, if_pos hhead]
    simp only [k1, k2, k3]
    rw [list_readers_loop_names tail ns fuel _ false hns hf2]
    cases first <;> simp [join_from]

theorem join_from_false : ∀ (ns : List (List Nat)), ns ≠ [] →
    join_from false ns = [44] ++ comma_join ns
  | [], h => absurd rfl h
  | [m], _ => by simp [join_from, comma_join]
  | m :: m2 :: rest, _ => by
    rw [join_from, join_from_false (m2 :: rest) (by simp), comma_join]
    simp

theorem join_from_true : ∀ (ns : List (List Nat)), join_from true ns = comma_join ns
  | [] => rfl
  | [m] => by simp [join_from, comma_join]
  | m :: m2 :: rest => by
    rw [join_from, join_from_false (m2 :: rest) (by simp), comma_join]
    simp

theorem live_connections_concat (log : List PcscCall) (e : PcscCall) :
    live_connections (log ++ [e]) = live_step (live_connections log) e := by
  unfold live_connections
  rw [List.foldl_append]
  rfl

theorem log_inv_start : log_inv [] 0 := by
  constructor
  · intro pre hpre
    rw [List.prefix_nil] at hpre
    subst hpre
    exact Nat.zero_le _
  · exact Or.inl rfl

theorem log_inv_concat (log : List PcscCall) (e : PcscCall) (h h2 : Nat)
    (hinv : log_inv log h)
    (hnew : live_step (live_connections log) e = []
      ∨ (h2 ≠ 0 ∧ live_step (live_connections log) e = [h2])) :
    log_inv (log ++ [e]) h2 := by
  constructor
  · intro pre hpre
    rcases List.prefix_concat_iff.mp hpre with hp | hp
    · rw [hp, live_connections_concat]
      rcases hnew with hn | hn
      · rw [hn]
        exact Nat.zero_le _
      · rw [hn.2]
        exact le_refl _
    · exact hinv.1 pre hp
  · rw [live_connections_concat]
    exact hnew

theorem log_inv_neutral (log : List PcscCall) (e : PcscCall) (h : Nat)
    (hinv : log_inv log h) (hn : ∀ l, live_step l e = l) : log_inv (log ++ [e]) h := by
  apply log_inv_concat log e h h hinv
  rw [hn]
  exact hinv.2

theorem log_inv_disconnect (log : List PcscCall) (h d : Nat) (hinv : log_inv log h) :
    log_inv (log ++ [PcscCall.disconnect h d]) 0 := by
  apply log_inv_concat log _ h 0 hinv
  left
  rcases hinv.2 with hl | hl
  · rw [hl]
    rfl
  · rw [hl.2]
    simp [live_step]

theorem log_inv_connect (log : List PcscCall) (ctx : Nat) (name : List Nat) (sh pr : Nat)
    (rv : Int) (hc : Option Nat) (hinv : log_inv log 0)
    (hok : rv = 0 → ∃ x, x ≠ 0 ∧ hc = some x) :
    log_inv (log ++ [PcscCall.connect ctx name sh pr rv hc]) (hc.getD 0) := by
  have hl : live_connections log = [] := by
    rcases hinv.2 with hl | hl
    · exact hl
    · exact absurd rfl hl.1
  apply log_inv_concat log _ 0 _ hinv
  rw [hl]
  by_cases hrv : rv = 0
  · obtain ⟨x, hx, hcx⟩ := hok hrv
    right
    rw [hcx]
    exact ⟨hx, by simp [live_step, hrv]⟩
  · left
    simp [live_step, hrv]

theorem disconnect_card_inv {σ : Type} (ps : Subsystem σ) (g : Globals σ)
    (hinv : log_inv g.log g.hCard) :
    log_inv (disconnect_card ps g).log (disconnect_card ps g).hCard
      ∧ ((disconnect_card ps g).hCard = 0) := by
  unfold disconnect_card
  by_cases hc : g.hCard = 0
  · simp only [hc, ne_eq, not_true_eq_false, if_false]
    rw [hc] at hinv
    exact ⟨hinv, trivial⟩
  · simp only [hc, ne_eq, not_false_eq_true, if_true]
    exact ⟨log_inv_disconnect g.log g.hCard SCARD_LEAVE_CARD hinv, trivial⟩

theorem connect_reader_inv {σ : Type} (ps : Subsystem σ) (g : Globals σ) (name : List Nat)
    (hconn : ∀ st ctx nm sh pr, (ps.connect st ctx nm sh pr).1.rv = 0 →
      ∃ h, h ≠ 0 ∧ (ps.connect st ctx nm sh pr).1.hCard = some h)
    (hinv : log_inv g.log g.hCard) :
    log_inv (connect_reader ps g name).2.log (connect_reader ps g name).2.hCard := by
  unfold connect_reader SCARD_S_SUCCESS
  by_cases hc : g.hCard = 0
  · simp only [hc, ne_eq, not_true_eq_false, if_false]
    rw [hc] at hinv
    split_ifs <;> exact log_inv_connect g.log _ _ _ _ _ _ hinv (hconn _ _ _ _ _)
  · simp only [hc, ne_eq, not_false_eq_true, if_true]
    have h0 := log_inv_disconnect g.log g.hCard SCARD_LEAVE_CARD hinv
    split_ifs <;> exact log_inv_connect _ _ _ _ _ _ _ h0 (hconn _ _ _ _ _)

theorem list_readers_inv {σ : Type} (ps : Subsystem σ) (g : Globals σ)
    (hinv : log_inv g.log g.hCard) :
    log_inv (list_readers ps g).2.log (list_readers ps g).2.hCard := by
  unfold list_readers SCARD_S_SUCCESS
  have h1 := log_inv_neutral g.log (PcscCall.establishContext SCARD_SCOPE_SYSTEM
    (ps.establishContext g.pcsc SCARD_SCOPE_SYSTEM).1.rv
    (ps.establishContext g.pcsc SCARD_SCOPE_SYSTEM).1.hContext) g.hCard hinv (fun _ => rfl)
  simp only []
  split_ifs
  · exact h1
  · exact log_inv_neutral _ _ _ h1 (fun _ => rfl)
  · exact log_inv_neutral _ _ _ h1 (fun _ => rfl)

theorem cleanup_inv {σ : Type} (ps : Subsystem σ) (g : Globals σ)
    (hinv : log_inv g.log g.hCard) :
    log_inv (cleanup ps g).log (cleanup ps g).hCard
      ∧ (cleanup ps g).hCard = 0 ∧ (cleanup ps g).hContext = 0 := by
  obtain ⟨d1, d2⟩ := disconnect_card_inv ps g hinv
  unfold cleanup
  simp only []
  split_ifs with hctx
  · exact ⟨log_inv_neutral _ _ _ d1 (fun _ => rfl), d2, rfl⟩
  · exact ⟨d1, d2, by simpa using hctx⟩

theorem session_run_inv {σ : Type} (ps : Subsystem σ)
    (hconn : ∀ st ctx nm sh pr, (ps.connect st ctx nm sh pr).1.rv = 0 →
      ∃ h, h ≠ 0 ∧ (ps.connect st ctx nm sh pr).1.hCard = some h) :
    ∀ (calls : List SessionCall) (g : Globals σ), log_inv g.log g.hCard →
      log_inv (session_run ps g calls).log (session_run ps g calls).hCard
  | [], g, hinv => hinv
  | c :: rest, g, hinv => by
    have hstep : log_inv (session_step ps g c).log (session_step ps g c).hCard := by
      cases c with
      | list_readers => exact list_readers_inv ps g hinv
      | connect_reader name => exact connect_reader_inv ps g name hconn hinv
      | disconnect_card => exact (disconnect_card_inv ps g hinv).1
      | cleanup => exact (cleanup_inv ps g hinv).1
    exact session_run_inv ps hconn rest (session_step ps g c) hstep

theorem load_key_overwrites {σ : Type} (tx : Transmit σ) (g : Globals σ) (key : List Nat)
    (slot : Int) (m : List Nat) :
    load_key tx { g with error_msg := m } key slot = load_key tx g key slot := by
  unfold load_key SCardTransmit pioSendPci
  rfl

theorem authenticate_block_overwrites {σ : Type} (tx : Transmit σ) (g : Globals σ)
    (b t s : Int) (m : List Nat) :
    authenticate_block tx { g with error_msg := m } b t s = authenticate_block tx g b t s := by
  unfold authenticate_block SCardTransmit pioSendPci
  rfl

theorem write_block_string_overwrites {σ : Type} (tx : Transmit σ) (g : Globals σ)
    (key : List Nat) (b : Int) (text m : List Nat) :
    write_block_string tx { g with error_msg := m } key b text
      = write_block_string tx g key b text := by
  unfold write_block_string
  rw [load_key_overwrites]

theorem connect_reader_overwrites {σ : Type} (ps : Subsystem σ) (g : Globals σ)
    (name m : List Nat) :
    connect_reader ps { g with error_msg := m } name = connect_reader ps g name := by
  unfold connect_reader
  simp only []
  split_ifs <;> rfl

theorem authenticate_block_success_message {σ : Type} (tx : Transmit σ) (g : Globals σ)
    (b t s : Int) (h : (authenticate_block tx g b t s).1 = 0) :
    (authenticate_block tx g b t s).2.error_msg = lit "Authentication successful" := by
  unfold authenticate_block at h ⊢
  simp only [] at h ⊢
  split_ifs at h ⊢ <;> first | rfl | simp at h

theorem read_block_string_error_msg {σ : Type} (tx : Transmit σ) (g : Globals σ)
    (key : List Nat) (b : Int) :
    (g.hCard = 0 → (read_block_string tx g key b).2.error_msg = g.error_msg)
      ∧ ((load_key tx g key 0).1 = 0 →
        (authenticate_block tx (load_key tx g key 0).2 b 0x60 0).1 = 0 →
        (read_block_string tx g key b).2.error_msg
          = (authenticate_block tx (load_key tx g key 0).2 b 0x60 0).2.error_msg) := by
  constructor
  · intro hc
    unfold read_block_string
    simp [hc]
  · intro h1 h2
    have hc := connected_of_load_key tx g key 0 h1
    unfold read_block_string SCardTransmit
    simp only [hc, h1, h2, if_false, ne_eq, not_true_eq_false]
    split_ifs <;> rfl

theorem load_key_early_paths {σ : Type} (tx : Transmit σ) (g : Globals σ) (key : List Nat)
    (slot : Int) :
    (g.hCard = 0 →
        (load_key tx g key slot).1 = -1
        ∧ (load_key tx g key slot).2.error_msg = lit "Not connected to card")
      ∧ (g.hCard ≠ 0 → (hex_to_bytes key 6).length ≠ 6 →
        (load_key tx g key slot).1 = -1
        ∧ (load_key tx g key slot).2.error_msg
          = lit "Invalid key length: expected 12 hex chars, got "
            ++ fmt_d (hex_to_bytes key 6).length ++ lit " bytes") := by
  constructor
  · intro hc
    unfold load_key
    simp [hc]
  · intro hc hk
    have hk2 : ((hex_to_bytes key 6).length : Int) ≠ 6 := by omega
    unfold load_key
    simp [hc, hk2]

theorem load_key_paths {σ : Type} (tx : Transmit σ) (g : Globals σ) (key : List Nat)
    (slot : Int) (r : TransmitResult × σ)
    (hr : tx g.pcsc g.hCard (pioSendPci g) (load_key_frame key slot) = r)
    (hc : g.hCard ≠ 0) (hk : (hex_to_bytes key 6).length = 6) :
    (r.1.rv ≠ 0 →
        (load_key tx g key slot).1 = -1
        ∧ (load_key tx g key slot).2.error_msg
          = lit "SCardTransmit failed (0x" ++ fmt_08lX r.1.rv ++ lit ")")
      ∧ (r.1.rv = 0 → r.1.recv.length < 2 →
        (load_key tx g key slot).1 = -1
        ∧ (load_key tx g key slot).2.error_msg
          = lit "Invalid response length: " ++ fmt_lu r.1.recv.length)
      ∧ (r.1.rv = 0 → 2 ≤ r.1.recv.length → recvByte r.1 0 = 0x90 ∧ recvByte r.1 1 = 0x00 →
        (load_key tx g key slot).1 = 0
        ∧ (load_key tx g key slot).2.error_msg = lit "Key loaded successfully")
      ∧ (r.1.rv = 0 → 2 ≤ r.1.recv.length → recvByte r.1 0 = 0x69 ∧ recvByte r.1 1 = 0x86 →
        (load_key tx g key slot).1 = -1
        ∧ (load_key tx g key slot).2.error_msg
          = lit "Load key not supported - trying alternative method")
      ∧ (r.1.rv = 0 → 2 ≤ r.1.recv.length → ¬ (recvByte r.1 0 = 0x90 ∧ recvByte r.1 1 = 0x00) →
        ¬ (recvByte r.1 0 = 0x69 ∧ recvByte r.1 1 = 0x86) →
        (load_key tx g key slot).1 = -1
        ∧ (load_key tx g key slot).2.error_msg
          = lit "Load key failed: SW=" ++ fmt_02X (recvByte r.1 0)
            ++ fmt_02X (recvByte r.1 1)) := by
  have hk2 : ((hex_to_bytes key 6).length : Int) = 6 := by omega
  unfold load_key SCardTransmit SCARD_S_SUCCESS
  unfold load_key_frame at hr
  simp only [hc, hk2, if_false, ne_eq, not_true_eq_false]
  rw [hr]
  refine ⟨?_, ?_, ?_, ?_, ?_⟩
  · intro h
    simp [h]
  · intro h hl
    have hl2 : ¬ (2 ≤ r.1.recv.length) := by omega
    simp [h, hl2]
  · intro h hl hs
    simp [h, hl, hs.1, hs.2]
  · intro h hl hs
    simp [h, hl, hs.1, hs.2]
  · intro h hl hn1 hn2
    simp only [h, hl, hn1, hn2, if_true, if_false, ge_iff_le, not_true_eq_false, and_self]

theorem authenticate_block_paths {σ : Type} (tx : Transmit σ) (g : Globals σ)
    (b t s : Int) (r : TransmitResult × σ)
    (hr : tx g.pcsc g.hCard (pioSendPci g) (authenticate_frame b t s) = r)
    (hc : g.hCard ≠ 0) :
    (r.1.rv ≠ 0 →
        (authenticate_block tx g b t s).1 = -1
        ∧ (authenticate_block tx g b t s).2.error_msg
          = lit "Auth SCardTransmit failed (0x" ++ fmt_08lX r.1.rv ++ lit ")")
      ∧ (r.1.rv = 0 → r.1.recv.length < 2 →
        (authenticate_block tx g b t s).1 = -1
        ∧ (authenticate_block tx g b t s).2.error_msg
          = lit "Invalid auth response length: " ++ fmt_lu r.1.recv.length)
      ∧ (r.1.rv = 0 → 2 ≤ r.1.recv.length → recvByte r.1 0 = 0x90 ∧ recvByte r.1 1 = 0x00 →
        (authenticate_block tx g b t s).1 = 0
        ∧ (authenticate_block tx g b t s).2.error_msg = lit "Authentication successful")
      ∧ (r.1.rv = 0 → 2 ≤ r.1.recv.length → ¬ (recvByte r.1 0 = 0x90 ∧ recvByte r.1 1 = 0x00) →
        (authenticate_block tx g b t s).1 = -1
        ∧ (authenticate_block tx g b t s).2.error_msg
          = lit "Authentication failed: SW=" ++ fmt_02X (recvByte r.1 0)
            ++ fmt_02X (recvByte r.1 1)) := by
  unfold authenticate_block SCardTransmit SCARD_S_SUCCESS
  unfold authenticate_frame at hr
  simp only [hc, if_false]
  rw [hr]
  refine ⟨?_, ?_, ?_, ?_⟩
  · intro h
    simp [h]
  · intro h hl
    have hl2 : ¬ (2 ≤ r.1.recv.length) := by omega
    simp [h, hl2]
  · intro h hl hs
    simp [h, hl, hs.1, hs.2]
  · intro h hl hn1
    simp only [h, hl, hn1, if_true, if_false, ge_iff_le, ne_eq, not_true_eq_false, and_self]

theorem authenticate_block_not_connected {σ : Type} (tx : Transmit σ) (g : Globals σ)
    (b t s : Int) (hc : g.hCard = 0) :
    (authenticate_block tx g b t s).1 = -1
      ∧ (authenticate_block tx g b t s).2.error_msg = lit "Not connected to card" := by
  unfold authenticate_block
  simp [hc]

theorem begins_not_success (P X : List Nat)
    (h : ∀ S ∈ success_messages, S.take P.length ≠ P) : P ++ X ∉ success_messages := by
  intro hmem
  apply h _ hmem
  rw [List.take_left']
  rfl

theorem load_key_failure_not_success {σ : Type} (tx : Transmit σ) (g : Globals σ)
    (key : List Nat) (slot : Int) (h : (load_key tx g key slot).1 ≠ 0) :
    (load_key tx g key slot).2.error_msg ∉ success_messages := by
  by_cases hc : g.hCard = 0
  · rw [((load_key_early_paths tx g key slot).1 hc).2]
    decide
  · by_cases hk : (hex_to_bytes key 6).length = 6
    · obtain ⟨p1, p2, p3, p4, p5⟩ := load_key_paths tx g key slot _ rfl hc hk
      by_cases hrv : (tx g.pcsc g.hCard (pioSendPci g) (load_key_frame key slot)).1.rv = 0
      · by_cases hl : 2 ≤ (tx g.pcsc g.hCard (pioSendPci g)
            (load_key_frame key slot)).1.recv.length
        · by_cases hs : recvByte (tx g.pcsc g.hCard (pioSendPci g)
              (load_key_frame key slot)).1 0 = 0x90
              ∧ recvByte (tx g.pcsc g.hCard (pioSendPci g) (load_key_frame key slot)).1 1
                = 0x00
          · exact absurd (p3 hrv hl hs).1 h
          · by_cases hn : recvByte (tx g.pcsc g.hCard (pioSendPci g)
                (load_key_frame key slot)).1 0 = 0x69
                ∧ recvByte (tx g.pcsc g.hCard (pioSendPci g) (load_key_frame key slot)).1 1
                  = 0x86
            · rw [(p4 hrv hl hn).2]
              decide
            · rw [(p5 hrv hl hs hn).2, List.append_assoc]
              exact begins_not_success _ _ (by decide)
        · rw [(p2 hrv (by omega)).2]
          exact begins_not_success _ _ (by decide)
      · rw [(p1 hrv).2, List.append_assoc]
        exact begins_not_success _ _ (by decide)
    · rw [((load_key_early_paths tx g key slot).2 hc hk).2, List.append_assoc]
      exact begins_not_success _ _ (by decide)

theorem authenticate_block_failure_not_success {σ : Type} (tx : Transmit σ) (g : Globals σ)
    (b t s : Int) (h : (authenticate_block tx g b t s).1 ≠ 0) :
    (authenticate_block tx g b t s).2.error_msg ∉ success_messages := by
  by_cases hc : g.hCard = 0
  · rw [(authenticate_block_not_connected tx g b t s hc).2]
    decide
  · obtain ⟨p1, p2, p3, p4⟩ := authenticate_block_paths tx g b t s _ rfl hc
    by_cases hrv : (tx g.pcsc g.hCard (pioSendPci g) (authenticate_frame b t s)).1.rv = 0
    · by_cases hl : 2 ≤ (tx g.pcsc g.hCard (pioSendPci g)
          (authenticate_frame b t s)).1.recv.length
      · by_cases hs : recvByte (tx g.pcsc g.hCard (pioSendPci g)
            (authenticate_frame b t s)).1 0 = 0x90
            ∧ recvByte (tx g.pcsc g.hCard (pioSendPci g) (authenticate_frame b t s)).1 1
              = 0x00
        · exact absurd (p3 hrv hl hs).1 h
        · rw [(p4 hrv hl hs).2, List.append_assoc]
          exact begins_not_success _ _ (by decide)
      · rw [(p2 hrv (by omega)).2]
        exact begins_not_success _ _ (by decide)
    · rw [(p1 hrv).2, List.append_assoc]
      exact begins_not_success _ _ (by decide)

theorem write_block_string_early_paths {σ : Type} (tx : Transmit σ) (g : Globals σ)
    (key : List Nat) (b : Int) (text : List Nat) :
    (g.hCard = 0 →
        (write_block_string tx g key b text).1 = -1
        ∧ (write_block_string tx g key b text).2.error_msg = lit "Not connected to card")
      ∧ (g.hCard ≠ 0 → (load_key tx g key 0).1 ≠ 0 →
        (write_block_string tx g key b text).1 = -1
        ∧ (write_block_string tx g key b text).2.error_msg
          = (load_key tx g key 0).2.error_msg)
      ∧ (g.hCard ≠ 0 → (load_key tx g key 0).1 = 0 →
        (authenticate_block tx (load_key tx g key 0).2 b 0x60 0).1 ≠ 0 →
        (write_block_string tx g key b text).1 = -2
        ∧ (write_block_string tx g key b text).2.error_msg
          = (authenticate_block tx (load_key tx g key 0).2 b 0x60 0).2.error_msg) := by
  refine ⟨?_, ?_, ?_⟩
  · intro hc
    unfold write_block_string
    simp [hc]
  · intro hc h1
    unfold write_block_string
    simp [hc, h1]
  · intro hc h1 h2
    unfold write_block_string
    simp [hc, h1, h2]

theorem write_block_string_paths {σ : Type} (tx : Transmit σ) (g : Globals σ)
    (key : List Nat) (b : Int) (text : List Nat) (r : TransmitResult × σ)
    (hr : tx (authenticate_block tx (load_key tx g key 0).2 b 0x60 0).2.pcsc g.hCard
      (pioSendPci g) (write_frame b text) = r)
    (h1 : (load_key tx g key 0).1 = 0)
    (h2 : (authenticate_block tx (load_key tx g key 0).2 b 0x60 0).1 = 0) :
    (r.1.rv ≠ 0 →
        (write_block_string tx g key b text).1 = -3
        ∧ (write_block_string tx g key b text).2.error_msg
          = lit "Write failed (0x" ++ fmt_08lX r.1.rv ++ lit ")")
      ∧ (r.1.rv = 0 → 2 ≤ r.1.recv.length ∧ recvByte r.1 0 = 0x90 ∧ recvByte r.1 1 = 0x00 →
        (write_block_string tx g key b text).1 = 0
        ∧ (write_block_string tx g key b text).2.error_msg = lit "Write successful")
      ∧ (r.1.rv = 0 →
        ¬ (2 ≤ r.1.recv.length ∧ recvByte r.1 0 = 0x90 ∧ recvByte r.1 1 = 0x00) →
        (write_block_string tx g key b text).1 = -4
        ∧ lit "Write failed: SW=" <+: (write_block_string tx g key b text).2.error_msg
        ∧ (2 ≤ r.1.recv.length →
          (write_block_string tx g key b text).2.error_msg
            = lit "Write failed: SW=" ++ fmt_02X (recvByte r.1 0)
              ++ fmt_02X (recvByte r.1 1))) := by
  have hc := connected_of_load_key tx g key 0 h1
  have hg1 := load_key_globals tx g key 0
  have hg2 := authenticate_block_globals tx (load_key tx g key 0).2 b 0x60 0
  have hpci : pioSendPci (authenticate_block tx (load_key tx g key 0).2 b 0x60 0).2
      = pioSendPci g := by
    unfold pioSendPci
    rw [hg2.2.1, hg1.2.1]
  have hcard : (authenticate_block tx (load_key tx g key 0).2 b 0x60 0).2.hCard = g.hCard := by
    rw [hg2.1, hg1.1]
  have hdata := string_to_hex_16_length text
  have hfst : (string_to_hex text 16).1 = 16 := by rw [string_to_hex_16]
  have htake : List.take 16 (string_to_hex text 16).2 = (string_to_hex text 16).2 :=
    List.take_of_length_le (by omega)
  have hsplit : string_to_hex text 16 = (16, (string_to_hex text 16).2) :=
    Prod.ext hfst rfl
  unfold write_frame at hr
  unfold write_block_string
  simp only [hc, h1, h2, if_false, ne_eq, not_true_eq_false]
  generalize (string_to_hex text 16).2 = D at htake hsplit hr
  rw [hsplit]
  unfold SCardTransmit SCARD_S_SUCCESS
  have e1 : ((16 : Int) % 256).toNat = 16 := rfl
  have e2 : (16 : Int).toNat = 16 := rfl
  simp only [hpci, hcard, e1, e2, htake]
  rw [hr]
  refine ⟨?_, ?_, ?_⟩
  · intro h
    simp [h]
  · intro h hs
    simp [h, hs.1, hs.2.1, hs.2.2]
  · intro h hn
    simp only [h, hn, if_true, if_false, ge_iff_le, ne_eq, not_true_eq_false, true_and,
      implies_true, and_true, List.append_assoc]
    exact List.prefix_append _ _

theorem write_block_string_failure_not_success {σ : Type} (tx : Transmit σ) (g : Globals σ)
    (key : List Nat) (b : Int) (text : List Nat)
    (h : (write_block_string tx g key b text).1 ≠ 0) :
    (write_block_string tx g key b text).2.error_msg ∉ success_messages := by
  obtain ⟨e1, e2, e3⟩ := write_block_string_early_paths tx g key b text
  by_cases hc : g.hCard = 0
  · rw [(e1 hc).2]
    decide
  · by_cases h1 : (load_key tx g key 0).1 = 0
    · by_cases h2 : (authenticate_block tx (load_key tx g key 0).2 b 0x60 0).1 = 0
      · obtain ⟨p1, p2, p3⟩ := write_block_string_paths tx g key b text _ rfl h1 h2
        by_cases hrv : (tx (authenticate_block tx (load_key tx g key 0).2 b 0x60 0).2.pcsc
            g.hCard (pioSendPci g) (write_frame b text)).1.rv = 0
        · by_cases hs : 2 ≤ (tx (authenticate_block tx (load_key tx g key 0).2 b 0x60 0).2.pcsc
              g.hCard (pioSendPci g) (write_frame b text)).1.recv.length
              ∧ recvByte (tx (authenticate_block tx (load_key tx g key 0).2 b 0x60 0).2.pcsc
                g.hCard (pioSendPci g) (write_frame b text)).1 0 = 0x90
              ∧ recvByte (tx (authenticate_block tx (load_key tx g key 0).2 b 0x60 0).2.pcsc
                g.hCard (pioSendPci g) (write_frame b text)).1 1 = 0x00
          · exact absurd (p2 hrv hs).1 h
          · obtain ⟨X, hX⟩ := (p3 hrv hs).2.1
            rw [← hX]
            exact begins_not_success _ _ (by decide)
        · rw [(p1 hrv).2, List.append_assoc]
          exact begins_not_success _ _ (by decide)
      · rw [(e3 hc h1 h2).2]
        exact authenticate_block_failure_not_success tx _ b 0x60 0 h2
    · rw [(e2 hc h1).2]
      exact load_key_failure_not_success tx g key 0 h1

theorem connect_reader_paths {σ : Type} (ps : Subsystem σ) (g : Globals σ) (name : List Nat)
    (r : ConnectResult × σ)
    (hr : ps.connect (if g.hCard ≠ 0 then ps.disconnect g.pcsc g.hCard SCARD_LEAVE_CARD
        else g.pcsc) g.hContext name SCARD_SHARE_SHARED
        (SCARD_PROTOCOL_T0 ||| SCARD_PROTOCOL_T1) = r) :
    (r.1.rv ≠ 0 →
        (connect_reader ps g name).1 = -1
        ∧ (connect_reader ps g name).2.error_msg
          = lit "SCardConnect failed (0x" ++ fmt_08lX r.1.rv ++ lit ")")
      ∧ (r.1.rv = 0 →
        (connect_reader ps g name).1 = 0
        ∧ (connect_reader ps g name).2.dwActiveProtocol
          = r.1.dwActiveProtocol.getD g.dwActiveProtocol
        ∧ (connect_reader ps g name).2.error_msg
          = lit "Connected using protocol: "
            ++ (if r.1.dwActiveProtocol.getD g.dwActiveProtocol = SCARD_PROTOCOL_T0
                then lit "T0" else lit "T1")) := by
  unfold connect_reader SCARD_S_SUCCESS
  by_cases hc : g.hCard = 0
  · simp only [hc, ne_eq, not_true_eq_false, if_false] at hr ⊢
    rw [hr]
    constructor
    · intro h
      simp [h]
    · intro h
      simp [h]
  · simp only [hc, ne_eq, not_false_eq_true, if_true] at hr ⊢
    rw [hr]
    constructor
    · intro h
      simp [h]
    · intro h
      simp [h]

theorem connect_reader_failure_not_success {σ : Type} (ps : Subsystem σ) (g : Globals σ)
    (name : List Nat) (h : (connect_reader ps g name).1 ≠ 0) :
    (connect_reader ps g name).2.error_msg ∉ success_messages := by
  obtain ⟨p1, p2⟩ := connect_reader_paths ps g name _ rfl
  by_cases hrv : (ps.connect (if g.hCard ≠ 0 then ps.disconnect g.pcsc g.hCard SCARD_LEAVE_CARD
      else g.pcsc) g.hContext name SCARD_SHARE_SHARED
      (SCARD_PROTOCOL_T0 ||| SCARD_PROTOCOL_T1)).1.rv = 0
  · exact absurd (p2 hrv).1 h
  · rw [(p1 hrv).2, List.append_assoc]
    exact begins_not_success _ _ (by decide)

theorem read_block_string_step_messages {σ : Type} (tx : Transmit σ) (g : Globals σ)
    (key : List Nat) (b : Int) (hc : g.hCard ≠ 0) :
    ((load_key tx g key 0).1 ≠ 0 →
        (read_block_string tx g key b).2.error_msg = (load_key tx g key 0).2.error_msg
        ∧ (read_block_string tx g key b).1
          = lit "ERROR: " ++ (load_key tx g key 0).2.error_msg)
      ∧ ((load_key tx g key 0).1 = 0 →
        (authenticate_block tx (load_key tx g key 0).2 b 0x60 0).1 ≠ 0 →
        (read_block_string tx g key b).2.error_msg
          = (authenticate_block tx (load_key tx g key 0).2 b 0x60 0).2.error_msg
        ∧ (read_block_string tx g key b).1
          = lit "ERROR: "
            ++ (authenticate_block tx (load_key tx g key 0).2 b 0x60 0).2.error_msg) := by
  constructor
  · intro h1
    unfold read_block_string
    simp [hc, h1]
  · intro h1 h2
    unfold read_block_string
    simp [hc, h1, h2]

theorem load_key_success_message {σ : Type} (tx : Transmit σ) (g : Globals σ)
    (key : List Nat) (slot : Int) (h : (load_key tx g key slot).1 = 0) :
    (load_key tx g key slot).2.error_msg = lit "Key loaded successfully" := by
  unfold load_key at h ⊢
  simp only [] at h ⊢
  split_ifs at h ⊢ <;> first | rfl | simp at h

theorem write_block_string_success_message {σ : Type} (tx : Transmit σ) (g : Globals σ)
    (key : List Nat) (b : Int) (text : List Nat)
    (h : (write_block_string tx g key b text).1 = 0) :
    (write_block_string tx g key b text).2.error_msg = lit "Write successful" := by
  unfold write_block_string at h ⊢
  simp only [] at h ⊢
  split_ifs at h ⊢ <;> first | rfl | simp at h

theorem connect_reader_success_message {σ : Type} (ps : Subsystem σ) (g : Globals σ)
    (name : List Nat) (h : (connect_reader ps g name).1 = 0) :
    (connect_reader ps g name).2.error_msg = lit "Connected using protocol: T0"
      ∨ (connect_reader ps g name).2.error_msg = lit "Connected using protocol: T1" := by
  obtain ⟨p1, p2⟩ := connect_reader_paths ps g name _ rfl
  have e0 : lit "Connected using protocol: " ++ lit "T0" = lit "Connected using protocol: T0" := by
    decide
  have e1 : lit "Connected using protocol: " ++ lit "T1" = lit "Connected using protocol: T1" := by
    decide
  by_cases hrv : (ps.connect (if g.hCard ≠ 0 then ps.disconnect g.pcsc g.hCard SCARD_LEAVE_CARD
      else g.pcsc) g.hContext name SCARD_SHARE_SHARED
      (SCARD_PROTOCOL_T0 ||| SCARD_PROTOCOL_T1)).1.rv = 0
  · rw [(p2 hrv).2.2]
    split_ifs <;> first | exact Or.inl e0 | exact Or.inr e1
  · rw [(p1 hrv).1] at h
    exact absurd h (by decide)

/-- The frames one call of `read_block_string` (resp. `write_block_string`) transmits are
an initial part of load-key frame, authenticate frame, data frame, in that order, and a
later frame is sent exactly when the earlier exchanges passed the test the code applies
(`step_ok`: the first two bytes of the response are `90 00`). -/
theorem frames_in_protocol_order {σ : Type} (tx : Transmit σ) (g : Globals σ)
    (key : List Nat) (block : Int) (text : List Nat) :
    let sent := fun (f : List Nat) => PcscCall.transmit g.hCard (pioSendPci g) f
    let A := [0xFF, 0x82, 0x20, 0x00, 0x06] ++ hex_to_bytes key 6
    let B := [0xFF, 0x86, 0x00, 0x00, 0x05, 0x01, 0x00, (block % 256).toNat, 0x60, 0x00]
    let R := [0xFF, 0xB0, 0x00, (block % 256).toNat, 0x10]
    let W := [0xFF, 0xD6, 0x00, (block % 256).toNat, 0x10] ++ (string_to_hex text 16).2
    let r1 := tx g.pcsc g.hCard (pioSendPci g) A
    let r2 := tx r1.2 g.hCard (pioSendPci g) B
    (∃ fs, (read_block_string tx g key block).2.log = g.log ++ fs.map sent
        ∧ (fs = [] ∨ (fs = [A] ∧ ¬ step_ok r1.1)
          ∨ (fs = [A, B] ∧ step_ok r1.1 ∧ ¬ step_ok r2.1)
          ∨ (fs = [A, B, R] ∧ step_ok r1.1 ∧ step_ok r2.1)))
    ∧ (∃ fs, (write_block_string tx g key block text).2.log = g.log ++ fs.map sent
        ∧ (fs = [] ∨ (fs = [A] ∧ ¬ step_ok r1.1)
          ∨ (fs = [A, B] ∧ step_ok r1.1 ∧ ¬ step_ok r2.1)
          ∨ (fs = [A, B, W] ∧ step_ok r1.1 ∧ step_ok r2.1))) := by
  intro sent A B R W r1 r2
  have eA : load_key_frame key 0 = A := rfl
  have eB : authenticate_frame block 0x60 0 = B := rfl
  have eR : read_frame block = R := rfl
  have eW : write_frame block text = W := rfl
  by_cases hc : g.hCard = 0
  · constructor
    · exact ⟨[], by simp [read_block_string, hc], Or.inl rfl⟩
    · exact ⟨[], by simp [write_block_string, hc], Or.inl rfl⟩
  · obtain ⟨rs1, rs2, rs3⟩ := read_block_string_steps tx g key block hc
    obtain ⟨ws1, ws2, ws3⟩ := write_block_string_steps tx g key block text hc
    by_cases hk : (hex_to_bytes key 6).length = 6
    · obtain ⟨k1, k2, _, k4, k5, _, _⟩ := key_and_auth_steps tx g key block hc hk
      rw [eA] at k1 k2 k4 k5
      rw [eB] at k4 k5
      by_cases h1 : (load_key tx g key 0).1 = 0
      · by_cases h2 : (authenticate_block tx (load_key tx g key 0).2 block 0x60 0).1 = 0
        · constructor
          · refine ⟨[A, B, R], ?_, Or.inr (Or.inr (Or.inr ⟨rfl, k2.mp h1, k5.mp h2⟩))⟩
            rw [rs3 h1 h2, k4, eR]
            simp [sent]
          · refine ⟨[A, B, W], ?_, Or.inr (Or.inr (Or.inr ⟨rfl, k2.mp h1, k5.mp h2⟩))⟩
            rw [(ws3 h1 h2).1, k4, eW]
            simp [sent]
        · have n2 : ¬ step_ok r2.1 := fun h => h2 (k5.mpr h)
          constructor
          · refine ⟨[A, B], ?_, Or.inr (Or.inr (Or.inl ⟨rfl, k2.mp h1, n2⟩))⟩
            rw [rs2 h1 h2, k4]
            simp [sent]
          · refine ⟨[A, B], ?_, Or.inr (Or.inr (Or.inl ⟨rfl, k2.mp h1, n2⟩))⟩
            rw [(ws2 h1 h2).2, k4]
            simp [sent]
      · have n1 : ¬ step_ok r1.1 := fun h => h1 (k2.mpr h)
        constructor
        · refine ⟨[A], ?_, Or.inr (Or.inl ⟨rfl, n1⟩)⟩
          rw [rs1 h1, k1]
          simp [sent]
        · refine ⟨[A], ?_, Or.inr (Or.inl ⟨rfl, n1⟩)⟩
          rw [(ws1 h1).2, k1]
          simp [sent]
    · obtain ⟨j1, j2, _⟩ := load_key_rejected tx g key 0 hk
      have h1 : (load_key tx g key 0).1 ≠ 0 := by rw [j1]; decide
      constructor
      · exact ⟨[], by rw [rs1 h1, j2]; simp, Or.inl rfl⟩
      · exact ⟨[], by rw [(ws1 h1).2, j2]; simp, Or.inl rfl⟩

/-- The return codes of `write_block_string` on a connected session, stage by stage, with
each exchange judged by the test the code applies (`step_ok`, and for the last step the
first two bytes of the response). -/
theorem write_block_string_stage_codes {σ : Type} (tx : Transmit σ) (g : Globals σ)
    (key : List Nat) (block : Int) (text : List Nat) (hc : g.hCard ≠ 0) :
    let A := [0xFF, 0x82, 0x20, 0x00, 0x06] ++ hex_to_bytes key 6
    let B := [0xFF, 0x86, 0x00, 0x00, 0x05, 0x01, 0x00, (block % 256).toNat, 0x60, 0x00]
    let W := [0xFF, 0xD6, 0x00, (block % 256).toNat, 0x10] ++ (string_to_hex text 16).2
    let r1 := tx g.pcsc g.hCard (pioSendPci g) A
    let r2 := tx r1.2 g.hCard (pioSendPci g) B
    let r3 := tx r2.2 g.hCard (pioSendPci g) W
    let keyLoaded := (hex_to_bytes key 6).length = 6 ∧ step_ok r1.1
    let rc := (write_block_string tx g key block text).1
    (rc = 0 ↔ keyLoaded ∧ step_ok r2.1 ∧ step_ok r3.1)
    ∧ (rc = -1 ↔ ¬ keyLoaded)
    ∧ (rc = -2 ↔ keyLoaded ∧ ¬ step_ok r2.1)
    ∧ (rc = -3 ↔ keyLoaded ∧ step_ok r2.1 ∧ r3.1.rv ≠ 0)
    ∧ (rc = -4 ↔ keyLoaded ∧ step_ok r2.1 ∧ r3.1.rv = 0
        ∧ ¬ (2 ≤ r3.1.recv.length ∧ recvByte r3.1 0 = 0x90 ∧ recvByte r3.1 1 = 0x00)) := by
  intro A B W r1 r2 r3 keyLoaded rc
  have eA : load_key_frame key 0 = A := rfl
  have eB : authenticate_frame block 0x60 0 = B := rfl
  have eW : write_frame block text = W := rfl
  obtain ⟨ws1, ws2, ws3⟩ := write_block_string_steps tx g key block text hc
  by_cases hk : (hex_to_bytes key 6).length = 6
  · obtain ⟨_, k2, _, _, k5, _, k7⟩ := key_and_auth_steps tx g key block hc hk
    rw [eA] at k2 k5 k7
    rw [eB] at k5 k7
    by_cases h1 : (load_key tx g key 0).1 = 0
    · have o1 : step_ok r1.1 := k2.mp h1
      have kl : keyLoaded := ⟨hk, o1⟩
      by_cases h2 : (authenticate_block tx (load_key tx g key 0).2 block 0x60 0).1 = 0
      · have o2 : step_ok r2.1 := k5.mp h2
        obtain ⟨_, w0, w3, w4⟩ := ws3 h1 h2
        rw [k7, eW] at w0 w3 w4
        have hso : step_ok r3.1 ↔ r3.1.rv = 0
            ∧ (2 ≤ r3.1.recv.length ∧ recvByte r3.1 0 = 0x90 ∧ recvByte r3.1 1 = 0x00) :=
          Iff.rfl
        have hrc : rc = 0 ∨ rc = -3 ∨ rc = -4 := by
          by_cases hr : r3.1.rv = 0
          · by_cases hs : step_ok r3.1
            · exact Or.inl (w0.mpr hs)
            · exact Or.inr (Or.inr (w4.mpr ⟨hr, hs⟩))
          · exact Or.inr (Or.inl (w3.mpr hr))
        refine ⟨?_, ?_, ?_, ?_, ?_⟩
        · exact ⟨fun h => ⟨kl, o2, w0.mp h⟩, fun h => w0.mpr h.2.2⟩
        · constructor
          · intro h
            rcases hrc with h' | h' | h' <;> rw [h'] at h <;> exact absurd h (by decide)
          · intro h
            exact absurd kl h
        · constructor
          · intro h
            rcases hrc with h' | h' | h' <;> rw [h'] at h <;> exact absurd h (by decide)
          · intro h
            exact absurd o2 h.2
        · exact ⟨fun h => ⟨kl, o2, w3.mp h⟩, fun h => w3.mpr h.2.2⟩
        · constructor
          · intro h
            have h4 := w4.mp h
            exact ⟨kl, o2, h4.1, fun hs => h4.2 (hso.mpr ⟨h4.1, hs⟩)⟩
          · intro h
            exact w4.mpr ⟨h.2.2.1, fun hs => h.2.2.2 (hso.mp hs).2⟩
      · have n2 : ¬ step_ok r2.1 := fun h => h2 (k5.mpr h)
        have hrc : rc = -2 := (ws2 h1 h2).1
        refine ⟨?_, ?_, ?_, ?_, ?_⟩
        · exact ⟨fun h => by rw [hrc] at h; exact absurd h (by decide),
            fun h => absurd h.2.1 n2⟩
        · exact ⟨fun h => by rw [hrc] at h; exact absurd h (by decide),
            fun h => absurd kl h⟩
        · exact ⟨fun _ => ⟨kl, n2⟩, fun _ => hrc⟩
        · exact ⟨fun h => by rw [hrc] at h; exact absurd h (by decide),
            fun h => absurd h.2.1 n2⟩
        · exact ⟨fun h => by rw [hrc] at h; exact absurd h (by decide),
            fun h => absurd h.2.1 n2⟩
    · have n1 : ¬ keyLoaded := fun h => h1 (k2.mpr h.2)
      have hrc : rc = -1 := (ws1 h1).1
      refine ⟨?_, ?_, ?_, ?_, ?_⟩
      · exact ⟨fun h => by rw [hrc] at h; exact absurd h (by decide), fun h => absurd h.1 n1⟩
      · exact ⟨fun _ => n1, fun _ => hrc⟩
      · exact ⟨fun h => by rw [hrc] at h; exact absurd h (by decide), fun h => absurd h.1 n1⟩
      · exact ⟨fun h => by rw [hrc] at h; exact absurd h (by decide), fun h => absurd h.1 n1⟩
      · exact ⟨fun h => by rw [hrc] at h; exact absurd h (by decide), fun h => absurd h.1 n1⟩
  · have n1 : ¬ keyLoaded := fun h => hk h.1
    have h1 : (load_key tx g key 0).1 ≠ 0 := by
      rw [(load_key_rejected tx g key 0 hk).1]
      decide
    have hrc : rc = -1 := (ws1 h1).1
    refine ⟨?_, ?_, ?_, ?_, ?_⟩
    · exact ⟨fun h => by rw [hrc] at h; exact absurd h (by decide), fun h => absurd h.1 n1⟩
    · exact ⟨fun _ => n1, fun _ => hrc⟩
    · exact ⟨fun h => by rw [hrc] at h; exact absurd h (by decide), fun h => absurd h.1 n1⟩
    · exact ⟨fun h => by rw [hrc] at h; exact absurd h (by decide), fun h => absurd h.1 n1⟩
    · exact ⟨fun h => by rw [hrc] at h; exact absurd h (by decide), fun h => absurd h.1 n1⟩

/-! ## Claims -/

/-- C1, evaluated: the key-load exchange is answered with `90 00 6A 82`, a response whose
status word (its last two bytes) is `6A 82`, not `90 00`; `read_block_string` and
`write_block_string` test its first two bytes, take the step for a success and go on to
transmit the authenticate frame and the data frame. -/
theorem frames_sent_after_failed_key_load :
    (keyLoadErrorTransport () 1 2
        [0xFF, 0x82, 0x20, 0x00, 0x06, 0xFF, 0xFF, 0xFF, 0xFF, 0xFF, 0xFF]).1
        = ⟨0, [0x90, 0x00, 0x6A, 0x82]⟩
      ∧ status_word [0x90, 0x00, 0x6A, 0x82] = (0x6A, 0x82)
      ∧ (read_block_string keyLoadErrorTransport connected (lit "FFFFFFFFFFFF") 4).2.log
        = [PcscCall.transmit 1 2
              [0xFF, 0x82, 0x20, 0x00, 0x06, 0xFF, 0xFF, 0xFF, 0xFF, 0xFF, 0xFF],
            PcscCall.transmit 1 2 [0xFF, 0x86, 0x00, 0x00, 0x05, 0x01, 0x00, 0x04, 0x60, 0x00],
            PcscCall.transmit 1 2 [0xFF, 0xB0, 0x00, 0x04, 0x10]]
      ∧ (write_block_string keyLoadErrorTransport connected (lit "FFFFFFFFFFFF") 4
          (lit "HELLO")).2.log
        = [PcscCall.transmit 1 2
              [0xFF, 0x82, 0x20, 0x00, 0x06, 0xFF, 0xFF, 0xFF, 0xFF, 0xFF, 0xFF],
            PcscCall.transmit 1 2 [0xFF, 0x86, 0x00, 0x00, 0x05, 0x01, 0x00, 0x04, 0x60, 0x00],
            PcscCall.transmit 1 2
              [0xFF, 0xD6, 0x00, 0x04, 0x10, 0x48, 0x45, 0x4C, 0x4C, 0x4F, 0, 0, 0, 0, 0, 0,
                0, 0, 0, 0, 0]] := by
  refine ⟨?_, ?_, ?_, ?_⟩ <;> decide

/-- C2, evaluated: `write_block_string` judges each exchange by the first two bytes of
the response. With the update-binary frame answered `41 90 00` (status word `90 00`) it
returns -4; with it answered `90 00 6A 82` (status word `6A 82`) it returns 0; with the
load-key frame answered `90 00 6A 82` it does not return -1 but goes on and returns 0;
with every frame answered `41 90 00` it returns -1. With two-byte responses the codes
are as the claim says: `63 00` to authenticate gives -2. -/
theorem stage_codes_on_longer_responses :
    status_word [0x41, 0x90, 0x00] = (0x90, 0x00)
      ∧ (write_block_string dataPayloadTransport connected (lit "FFFFFFFFFFFF") 4
          (lit "HELLO")).1 = -4
      ∧ status_word [0x90, 0x00, 0x6A, 0x82] = (0x6A, 0x82)
      ∧ (write_block_string dataErrorTransport connected (lit "FFFFFFFFFFFF") 4
          (lit "HELLO")).1 = 0
      ∧ (write_block_string keyLoadErrorTransport connected (lit "FFFFFFFFFFFF") 4
          (lit "HELLO")).1 = 0
      ∧ (write_block_string payloadThenOkTransport connected (lit "FFFFFFFFFFFF") 4
          (lit "HELLO")).1 = -1
      ∧ (write_block_string authFailTransport connected (lit "FFFFFFFFFFFF") 4
          (lit "HELLO")).1 = -2 := by
  refine ⟨?_, ?_, ?_, ?_, ?_, ?_, ?_⟩ <;> decide

/-- C3, evaluated: `load_key`, `authenticate_block` and the last step of
`write_block_string` test the first two bytes of the response, not the last two. A
three-byte response that ends in `90 00` is reported as a failure by all three, while
`read_block_string` accepts the same response; a response that begins with `90 00` and
ends in `6A 82` is reported as a success. -/
theorem status_word_read_from_front :
    (load_key payloadThenOkTransport connected (lit "FFFFFFFFFFFF") 0).1 = -1
      ∧ (load_key payloadThenOkTransport connected (lit "FFFFFFFFFFFF") 0).2.error_msg
          = lit "Load key failed: SW=4190"
      ∧ (authenticate_block payloadThenOkTransport connected 4 0x60 0).1 = -1
      ∧ (write_block_string dataPayloadTransport connected (lit "FFFFFFFFFFFF") 4
          (lit "HELLO")).1 = -4
      ∧ (read_block_string dataPayloadTransport connected (lit "FFFFFFFFFFFF") 4).1
          = lit "A\n[Hex: 41 ]"
      ∧ (load_key okThenErrorTransport connected (lit "FFFFFFFFFFFF") 0).1 = 0
      ∧ (authenticate_block okThenErrorTransport connected 4 0x60 0).1 = 0
      ∧ (write_block_string okThenErrorTransport connected (lit "FFFFFFFFFFFF") 4
          (lit "HELLO")).1 = 0 := by
  refine ⟨?_, ?_, ?_, ?_, ?_, ?_, ?_, ?_⟩ <;> decide

/-- C4 as stated fails: a key text of 14 hexadecimal digits is not a text of exactly 12,
yet `load_key` returns 0 and transmits a frame that carries its first 6 bytes. -/
theorem load_key_accepts_long_key :
    (lit "FFFFFFFFFFFFFF").length = 14
      ∧ (∀ c ∈ lit "FFFFFFFFFFFFFF", isxdigit c = true)
      ∧ connected.hCard ≠ 0
      ∧ (load_key okTransport connected (lit "FFFFFFFFFFFFFF") 0).1 = 0
      ∧ (load_key okTransport connected (lit "FFFFFFFFFFFFFF") 0).2.log
          = [PcscCall.transmit 1 2
              [0xFF, 0x82, 0x20, 0x00, 0x06, 0xFF, 0xFF, 0xFF, 0xFF, 0xFF, 0xFF]] := by
  refine ⟨?_, ?_, ?_, ?_, ?_⟩ <;> decide

/-- C4, amended: on a connected session `load_key` performs a transport exchange exactly
when `hex_to_bytes`, which stops after 6 bytes, decodes 6 bytes from the key text;
otherwise it returns -1 and nothing is transmitted. For a key text made of complete pairs
of hexadecimal digits with optional spaces around them this is exactly when the text has
at least 6 pairs: with fewer nothing is transmitted and -1 is returned, with more the
pairs after the sixth are ignored and the frame carries the first 6 bytes. -/
theorem load_key_transmits_iff_six_bytes {σ : Type} (tx : Transmit σ) (g : Globals σ)
    (key : List Nat) (slot : Int) (hc : g.hCard ≠ 0) :
    ((hex_to_bytes key 6).length = 6 →
        (load_key tx g key slot).2.log = g.log ++ [PcscCall.transmit g.hCard (pioSendPci g)
          ([0xFF, 0x82, 0x20, (slot % 256).toNat, 0x06] ++ hex_to_bytes key 6)])
    ∧ ((hex_to_bytes key 6).length ≠ 6 →
        (load_key tx g key slot).1 = -1 ∧ (load_key tx g key slot).2.log = g.log
          ∧ (load_key tx g key slot).2.pcsc = g.pcsc)
    ∧ (∀ (ps : List (Nat × Nat × Nat)) (j : Nat) (tail : List Nat),
        (∀ p ∈ ps, isxdigit p.2.1 = true ∧ isxdigit p.2.2 = true) →
        key = hex_pairs_text ps ++ (List.replicate j 32 ++ 0 :: tail) →
        hex_to_bytes key 6 = (ps.map pair_value).take 6
          ∧ ((hex_to_bytes key 6).length = 6 ↔ 6 ≤ ps.length)) := by
  refine ⟨?_, ?_, ?_⟩
  · intro hk
    exact (load_key_sent tx g key slot hc hk).1
  · intro hk
    exact load_key_rejected tx g key slot hk
  · intro ps j tail hps hkey
    have h := hex_to_bytes_loop_pairs 6 j tail ps [] hps
    have e : hex_to_bytes key 6 = (ps.map pair_value).take 6 := by
      rw [hkey]
      unfold hex_to_bytes
      rw [h]
      simp
    refine ⟨e, ?_⟩
    rw [e, List.length_take, List.length_map]
    omega

/-- Witness of the amended C4: the key `FF FF FF FF FF FF` on a connected session. -/
theorem load_key_transmits_iff_six_bytes_witness :
    connected.hCard ≠ 0
      ∧ (load_key okTransport connected (lit "FF FF FF FF FF FF") 0).2.log
          = connected.log ++ [PcscCall.transmit connected.hCard (pioSendPci connected)
              ([0xFF, 0x82, 0x20, ((0 : Int) % 256).toNat, 0x06]
                ++ hex_to_bytes (lit "FF FF FF FF FF FF") 6)] :=
  ⟨by decide,
    (load_key_transmits_iff_six_bytes okTransport connected (lit "FF FF FF FF FF FF") 0
      (by decide)).1 (by decide)⟩

/-- C5: for a block number `b` in 0..255 and a text `t`, once key-load and authenticate
have succeeded, the data frame `write_block_string` transmits is the 21 bytes
`FF D6 00 b 10` followed by the 16 bytes of `t` padded or truncated to a block, so that
the Lc byte is the number of data bytes; the data frame `read_block_string` transmits is
the 5 bytes `FF B0 00 b 10`. -/
theorem data_frames_exact {σ : Type} (tx : Transmit σ) (g : Globals σ) (key : List Nat)
    (b : Int) (t tail : List Nat) (hb : 0 ≤ b ∧ b ≤ 255) (ht : ∀ c ∈ t, 1 ≤ c ∧ c ≤ 255)
    (h1 : (load_key tx g key 0).1 = 0)
    (h2 : (authenticate_block tx (load_key tx g key 0).2 b 0x60 0).1 = 0) :
    (write_block_string tx g key b (t ++ 0 :: tail)).2.log
        = (authenticate_block tx (load_key tx g key 0).2 b 0x60 0).2.log
          ++ [PcscCall.transmit g.hCard (pioSendPci g)
              ([0xFF, 0xD6, 0x00, b.toNat, 0x10] ++ pad_to_block t)]
      ∧ (pad_to_block t).length = 0x10
      ∧ ([0xFF, 0xD6, 0x00, b.toNat, 0x10] ++ pad_to_block t).length = 21
      ∧ (read_block_string tx g key b).2.log
        = (authenticate_block tx (load_key tx g key 0).2 b 0x60 0).2.log
          ++ [PcscCall.transmit g.hCard (pioSendPci g) [0xFF, 0xB0, 0x00, b.toNat, 0x10]] := by
  have hc := connected_of_load_key tx g key 0 h1
  have hbn : (b % 256).toNat = b.toNat := by omega
  have hpad := string_to_hex_pad t tail ht
  have hlen : (pad_to_block t).length = 16 := by
    have := string_to_hex_16_length (t ++ 0 :: tail)
    rw [hpad] at this
    exact this
  refine ⟨?_, hlen, ?_, ?_⟩
  · rw [((write_block_string_steps tx g key b (t ++ 0 :: tail) hc).2.2 h1 h2).1]
    unfold write_frame
    rw [hpad, hbn]
  · simp [hlen]
  · rw [(read_block_string_steps tx g key b hc).2.2 h1 h2]
    unfold read_frame
    rw [hbn]

/-- Witness of C5: block 4 and the text `HELLO` on a connected session whose transport
answers `90 00`. -/
theorem data_frames_exact_witness :
    ((0 : Int) ≤ 4 ∧ (4 : Int) ≤ 255)
      ∧ (∀ c ∈ lit "HELLO", 1 ≤ c ∧ c ≤ 255)
      ∧ (load_key okTransport connected (lit "FFFFFFFFFFFF") 0).1 = 0
      ∧ (authenticate_block okTransport
          (load_key okTransport connected (lit "FFFFFFFFFFFF") 0).2 4 0x60 0).1 = 0
      ∧ (write_block_string okTransport connected (lit "FFFFFFFFFFFF") 4
          (lit "HELLO" ++ 0 :: [])).2.log
        = (authenticate_block okTransport
            (load_key okTransport connected (lit "FFFFFFFFFFFF") 0).2 4 0x60 0).2.log
          ++ [PcscCall.transmit connected.hCard (pioSendPci connected)
              ([0xFF, 0xD6, 0x00, (4 : Int).toNat, 0x10] ++ pad_to_block (lit "HELLO"))] :=
  ⟨by decide, by decide, by decide, by decide,
    (data_frames_exact okTransport connected (lit "FFFFFFFFFFFF") 4 (lit "HELLO") []
      (by decide) (by decide) (by decide) (by decide)).1⟩

/-- C6: for a key text that decodes to the 6 bytes `k0..k5` and a key slot `s` in 0..255,
the single frame `load_key` transmits on a connected session is the 11 bytes
`FF 82 20 s 06 k0 k1 k2 k3 k4 k5`. -/
theorem load_key_frame_exact {σ : Type} (tx : Transmit σ) (g : Globals σ) (key : List Nat)
    (s : Int) (k0 k1 k2 k3 k4 k5 : Nat) (hc : g.hCard ≠ 0) (hs : 0 ≤ s ∧ s ≤ 255)
    (hk : hex_to_bytes key 6 = [k0, k1, k2, k3, k4, k5]) :
    (load_key tx g key s).2.log
      = g.log ++ [PcscCall.transmit g.hCard (pioSendPci g)
          [0xFF, 0x82, 0x20, s.toNat, 0x06, k0, k1, k2, k3, k4, k5]] := by
  have hlen : (hex_to_bytes key 6).length = 6 := by rw [hk]; rfl
  have hsn : (s % 256).toNat = s.toNat := by omega
  rw [(load_key_sent tx g key s hc hlen).1]
  unfold load_key_frame
  rw [hk, hsn]
  rfl

/-- Witness of C6: the key `A0 A1 A2 A3 A4 A5` loaded into slot 1. -/
theorem load_key_frame_exact_witness :
    connected.hCard ≠ 0 ∧ ((0 : Int) ≤ 1 ∧ (1 : Int) ≤ 255)
      ∧ hex_to_bytes (lit "A0 A1 A2 A3 A4 A5") 6 = [0xA0, 0xA1, 0xA2, 0xA3, 0xA4, 0xA5]
      ∧ (load_key okTransport connected (lit "A0 A1 A2 A3 A4 A5") 1).2.log
        = connected.log ++ [PcscCall.transmit connected.hCard (pioSendPci connected)
            [0xFF, 0x82, 0x20, (1 : Int).toNat, 0x06, 0xA0, 0xA1, 0xA2, 0xA3, 0xA4, 0xA5]] :=
  ⟨by decide, by decide, by decide,
    load_key_frame_exact okTransport connected (lit "A0 A1 A2 A3 A4 A5") 1
      0xA0 0xA1 0xA2 0xA3 0xA4 0xA5 (by decide) (by decide) (by decide)⟩

/-- C7: for a block number `b`, key type `t` and key slot `s`, each in 0..255, the single
frame `authenticate_block b t s` transmits on a connected session is the 10 bytes
`FF 86 00 00 05 01 00 b t s`; and the frame that `read_block_string` and
`write_block_string` send after a successful key-load is this frame with `t = 0x60` and
`s = 0x00`. -/
theorem authenticate_frame_exact {σ : Type} (tx : Transmit σ) (g : Globals σ)
    (b t s : Int) (key text : List Nat) (hc : g.hCard ≠ 0)
    (hb : 0 ≤ b ∧ b ≤ 255) (ht : 0 ≤ t ∧ t ≤ 255) (hs : 0 ≤ s ∧ s ≤ 255) :
    (authenticate_block tx g b t s).2.log
        = g.log ++ [PcscCall.transmit g.hCard (pioSendPci g)
            [0xFF, 0x86, 0x00, 0x00, 0x05, 0x01, 0x00, b.toNat, t.toNat, s.toNat]]
      ∧ ((load_key tx g key 0).1 = 0 →
          (∃ more, (read_block_string tx g key b).2.log
            = (load_key tx g key 0).2.log ++ PcscCall.transmit g.hCard (pioSendPci g)
                [0xFF, 0x86, 0x00, 0x00, 0x05, 0x01, 0x00, b.toNat, 0x60, 0x00] :: more)
          ∧ (∃ more, (write_block_string tx g key b text).2.log
            = (load_key tx g key 0).2.log ++ PcscCall.transmit g.hCard (pioSendPci g)
                [0xFF, 0x86, 0x00, 0x00, 0x05, 0x01, 0x00, b.toNat, 0x60, 0x00] :: more)) := by
  have hbn : (b % 256).toNat = b.toNat := by omega
  have htn : (t % 256).toNat = t.toNat := by omega
  have hsn : (s % 256).toNat = s.toNat := by omega
  constructor
  · rw [(authenticate_block_sent tx g b t s hc).1]
    unfold authenticate_frame
    rw [hbn, htn, hsn]
  · intro h1
    have hg1 := load_key_globals tx g key 0
    have hc1 : (load_key tx g key 0).2.hCard ≠ 0 := by rw [hg1.1]; exact hc
    have hpci : pioSendPci (load_key tx g key 0).2 = pioSendPci g := by
      unfold pioSendPci
      rw [hg1.2.1]
    have ha := (authenticate_block_sent tx (load_key tx g key 0).2 b 0x60 0 hc1).1
    rw [hg1.1, hpci] at ha
    unfold authenticate_frame at ha
    rw [hbn] at ha
    have e60 : ((0x60 : Int) % 256).toNat = 0x60 := rfl
    have e0 : ((0 : Int) % 256).toNat = 0 := rfl
    rw [e60, e0] at ha
    obtain ⟨_, rs2, rs3⟩ := read_block_string_steps tx g key b hc
    obtain ⟨_, ws2, ws3⟩ := write_block_string_steps tx g key b text hc
    by_cases h2 : (authenticate_block tx (load_key tx g key 0).2 b 0x60 0).1 = 0
    · constructor
      · exact ⟨[PcscCall.transmit g.hCard (pioSendPci g) (read_frame b)], by
          rw [rs3 h1 h2, ha]; simp⟩
      · exact ⟨[PcscCall.transmit g.hCard (pioSendPci g) (write_frame b text)], by
          rw [(ws3 h1 h2).1, ha]; simp⟩
    · constructor
      · exact ⟨[], by rw [rs2 h1 h2, ha]⟩
      · exact ⟨[], by rw [(ws2 h1 h2).2, ha]⟩

/-- Witness of C7: block 4 authenticated with Key B (0x61) against slot 1. -/
theorem authenticate_frame_exact_witness :
    connected.hCard ≠ 0
      ∧ (authenticate_block okTransport connected 4 0x61 1).2.log
        = connected.log ++ [PcscCall.transmit connected.hCard (pioSendPci connected)
            [0xFF, 0x86, 0x00, 0x00, 0x05, 0x01, 0x00, (4 : Int).toNat, (0x61 : Int).toNat,
              (1 : Int).toNat]] :=
  ⟨by decide,
    (authenticate_frame_exact okTransport connected 4 0x61 1 (lit "FFFFFFFFFFFF")
      (lit "HELLO") (by decide) (by decide) (by decide) (by decide)).1⟩

/-- C8: for a byte sequence `b` of at most 16 bytes, `hex_to_bytes` with maximum output
length 16 applied to the text `encode_hex b` (two uppercase hexadecimal digits per byte,
separated by single spaces) returns `length b` and writes exactly the bytes of `b`; the
same holds for the hex dump as `read_block_string` renders it. -/
theorem hex_round_trip (b tail : List Nat) (hlen : b.length ≤ 16) (hb : ∀ x ∈ b, x < 256) :
    hex_to_bytes (encode_hex b ++ 0 :: tail) 16 = b
      ∧ (hex_to_bytes (encode_hex b ++ 0 :: tail) 16).length = b.length
      ∧ hex_to_bytes (hex_dump b ++ 0 :: tail) 16 = b := by
  have h16 : (((([] : List Nat).length + b.length : Nat)) : Int) ≤ 16 := by
    simp only [List.length_nil]
    omega
  have e1 : hex_to_bytes (encode_hex b ++ 0 :: tail) 16 = b := by
    unfold hex_to_bytes
    rw [hex_to_bytes_loop_encode_hex 16 tail b [] hb h16]
    rfl
  have e2 : hex_to_bytes (hex_dump b ++ 0 :: tail) 16 = b := by
    unfold hex_to_bytes
    rw [hex_to_bytes_loop_hex_dump 16 tail b [] hb h16]
    rfl
  exact ⟨e1, by rw [e1], e2⟩

/-- Witness of C8: the three bytes `FF A0 6B`. -/
theorem hex_round_trip_witness :
    [0xFF, 0xA0, 0x6B].length ≤ 16 ∧ (∀ x ∈ [0xFF, 0xA0, 0x6B], x < 256)
      ∧ encode_hex [0xFF, 0xA0, 0x6B] = lit "FF A0 6B"
      ∧ hex_to_bytes (encode_hex [0xFF, 0xA0, 0x6B] ++ 0 :: []) 16 = [0xFF, 0xA0, 0x6B] :=
  ⟨by decide, by decide, by decide,
    (hex_round_trip [0xFF, 0xA0, 0x6B] [] (by decide) (by decide)).1⟩

/-- C9, evaluated: on the text `FFA` the single trailing digit is decoded as the byte
`0A` and counted, and the scan pointer then moves two characters on, past the terminator
of the text: whatever memory follows the terminator, the output begins `FF 0A`. On
`FF A0 6B` the result is `FF A0 6B`. -/
theorem hex_to_bytes_trailing_digit :
    hex_to_bytes (lit "FFA") 16 = [0xFF, 0x0A]
      ∧ (∀ tail : List Nat, ∃ more,
          hex_to_bytes (lit "FFA" ++ 0 :: tail) 16 = [0xFF, 0x0A] ++ more)
      ∧ hex_to_bytes (lit "FF A0 6B") 16 = [0xFF, 0xA0, 0x6B] := by
  refine ⟨by decide, ?_, by decide⟩
  intro tail
  have e : lit "FFA" = [70, 70, 65] := by decide
  have h1 : hex_to_bytes (lit "FFA" ++ 0 :: tail) 16
      = hex_to_bytes_loop 16 tail [0xFF, 0x0A] := by
    rw [e]
    simp [hex_to_bytes, hex_to_bytes_loop, sscanf_2hhx, isspace, isxdigit, hexval]
  rw [h1]
  exact hex_to_bytes_loop_extends 16 tail.length tail [0xFF, 0x0A] (le_refl _)

/-- C10: for a byte sequence and a maximum text length `m ≥ 1`, `bytes_to_string` yields
the bytes before the first `0x00`, at most `m - 1` of them, each byte in 32..126 as
itself and every other byte as `.`; the text holds no NUL, only characters in 32..126,
and at most `min(len, m - 1)` of them. `41 00 42` gives `A`, and `01 7F 41` gives
`..A`. -/
theorem bytes_to_string_display (bytes : List Nat) (m : Int) (hm : 1 ≤ m) :
    bytes_to_string bytes bytes.length m
        = ((bytes.takeWhile (fun b => b != 0)).take (m - 1).toNat).map display_char
      ∧ 0 ∉ bytes_to_string bytes bytes.length m
      ∧ (∀ c ∈ bytes_to_string bytes bytes.length m, 32 ≤ c ∧ c ≤ 126)
      ∧ ((bytes_to_string bytes bytes.length m).length : Int) ≤ min (bytes.length : Int) (m - 1)
      ∧ bytes_to_string [0x41, 0x00, 0x42] 3 128 = lit "A"
      ∧ bytes_to_string [0x01, 0x7F, 0x41] 3 128 = lit "..A" := by
  have e : bytes_to_string bytes bytes.length m
      = ((bytes.takeWhile (fun b => b != 0)).take (m - 1).toNat).map display_char := by
    unfold bytes_to_string
    rw [bytes_to_string_loop_eq]
    simp
  have hr : ∀ c ∈ bytes_to_string bytes bytes.length m, 32 ≤ c ∧ c ≤ 126 := by
    intro c hc
    rw [e, List.mem_map] at hc
    obtain ⟨x, _, hx⟩ := hc
    rw [← hx]
    exact display_char_range x
  refine ⟨e, ?_, hr, ?_, by decide, by decide⟩
  · intro h0
    have := (hr 0 h0).1
    omega
  · have h1 : (bytes.takeWhile (fun b => b != 0)).length ≤ bytes.length :=
      (List.takeWhile_sublist _).length_le
    rw [e, List.length_map, List.length_take]
    omega

/-- Witness of C10: the bytes `41 00 42` with a text buffer of 128 characters. -/
theorem bytes_to_string_display_witness :
    (1 : Int) ≤ 128
      ∧ bytes_to_string [0x41, 0x00, 0x42] ([0x41, 0x00, 0x42] : List Nat).length 128
        = (([0x41, 0x00, 0x42].takeWhile (fun b => b != 0)).take ((128 : Int) - 1).toNat).map
            display_char :=
  ⟨by decide, (bytes_to_string_display [0x41, 0x00, 0x42] 128 (by decide)).1⟩

/-- C11: for every text `t`, `string_to_hex(t, out, 16)` returns 16 and leaves in `out`
the first `min(length t, 16)` character codes of `t` followed by zero bytes up to 16
bytes in total; `HI` gives `48 49` and fourteen zero bytes. -/
theorem string_to_hex_block (t tail : List Nat) (ht : ∀ c ∈ t, 1 ≤ c ∧ c ≤ 255) :
    (string_to_hex (t ++ 0 :: tail) 16).1 = 16
      ∧ (string_to_hex (t ++ 0 :: tail) 16).2
        = t.take (min t.length 16) ++ List.replicate (16 - min t.length 16) 0
      ∧ (string_to_hex (t ++ 0 :: tail) 16).2.length = 16
      ∧ string_to_hex (lit "HI") 16
        = (16, [0x48, 0x49, 0, 0, 0, 0, 0, 0, 0, 0, 0, 0, 0, 0, 0, 0]) := by
  have h := string_to_hex_pad t tail ht
  have e1 : t.take (min t.length 16) = t.take 16 := by
    by_cases hl : t.length ≤ 16
    · rw [List.take_of_length_le (by omega), List.take_of_length_le hl]
    · rw [show min t.length 16 = 16 by omega]
  have e2 : 16 - min t.length 16 = 16 - t.length := by omega
  refine ⟨by rw [h], ?_, string_to_hex_16_length _, by decide⟩
  rw [h, e1, e2]
  rfl

/-- Witness of C11: the text `HI` followed by its terminator. -/
theorem string_to_hex_block_witness :
    (∀ c ∈ lit "HI", 1 ≤ c ∧ c ≤ 255)
      ∧ (string_to_hex (lit "HI" ++ 0 :: []) 16).1 = 16
      ∧ (string_to_hex (lit "HI" ++ 0 :: []) 16).2
        = (lit "HI").take (min (lit "HI").length 16)
          ++ List.replicate (16 - min (lit "HI").length 16) 0 :=
  ⟨by decide, (string_to_hex_block (lit "HI") [] (by decide)).1,
    (string_to_hex_block (lit "HI") [] (by decide)).2.1⟩

/-- C12: for a valid 6-byte key, any block number and a text `t` of printable ASCII
characters, against the transport that answers `90 00` to load-key, authenticate and
update-binary and answers a read with the 16 bytes last written followed by `90 00`:
`write_block_string` returns 0, and the text the following `read_block_string` returns
starts with the display text `t` cut to 16 characters (`t` itself when it has at most
16), followed by the hex dump. For `HELLO`, key `FFFFFFFFFFFF` and block 4 the display
text is `HELLO`. -/
theorem write_then_read_echo (g : Globals (List Nat)) (key t tail : List Nat) (block : Int)
    (hc : g.hCard ≠ 0) (hk : (hex_to_bytes key 6).length = 6)
    (ht : ∀ c ∈ t, 32 ≤ c ∧ c ≤ 126) :
    (write_block_string echoTransport g key block (t ++ 0 :: tail)).1 = 0
      ∧ (read_block_string echoTransport
          (write_block_string echoTransport g key block (t ++ 0 :: tail)).2 key block).1
        = t.take 16 ++ lit "\n[Hex: " ++ hex_dump (pad_to_block t) ++ lit "]"
      ∧ (t.length ≤ 16 → t.take 16 = t)
      ∧ (read_block_string echoTransport
          (write_block_string echoTransport (connectedEcho []) (lit "FFFFFFFFFFFF") 4
            (lit "HELLO")).2 (lit "FFFFFFFFFFFF") 4).1
        = lit "HELLO" ++ lit "\n[Hex: 48 45 4C 4C 4F 00 00 00 00 00 00 00 00 00 00 00 ]" := by
  have ht1 : ∀ c ∈ t, 1 ≤ c ∧ c ≤ 255 := fun c hcm => by
    have := ht c hcm
    omega
  have ok : step_ok ⟨0, [0x90, 0x00]⟩ := by decide
  obtain ⟨_, h1, h2, _⟩ := (echo_read_succeeds g key block hc hk).1
  obtain ⟨_, w0, _, _⟩ :=
    (write_block_string_steps echoTransport g key block (t ++ 0 :: tail) hc).2.2 h1 h2
  obtain ⟨a1, a2, _⟩ :=
    write_block_string_after echoTransport g key block (t ++ 0 :: tail) hc h1 h2
  rw [echoTransport_write] at w0 a1
  rw [string_to_hex_pad t tail ht1] at a1
  have hcw : (write_block_string echoTransport g key block (t ++ 0 :: tail)).2.hCard ≠ 0 := by
    rw [a2]
    exact hc
  obtain ⟨rs, rr⟩ := echo_read_succeeds
    (write_block_string echoTransport g key block (t ++ 0 :: tail)).2 key block hcw hk
  rw [a1] at rr
  have hP := pad_to_block_length t
  have hlen : (pad_to_block t ++ [0x90, 0x00]).length = 18 := by
    simp only [List.length_append, hP, List.length_cons, List.length_nil]
  refine ⟨w0.mpr ok, ?_, fun hl => List.take_of_length_le hl, by decide⟩
  rw [read_block_string_success _ _ _ _ rs, rr]
  simp only [hlen]
  have htk : List.take 16 (pad_to_block t ++ [0x90, 0x00]) = pad_to_block t := by
    rw [List.take_append_of_le_length (le_of_eq hP.symm), List.take_of_length_le (le_of_eq hP)]
  rw [show ((18 : Nat) : Int) - 2 = 16 from rfl, show (18 : Nat) - 2 = 16 from rfl,
    bytes_to_string_padded t ht, htk]

/-- Witness of C12: the text `HELLO`, key `FFFFFFFFFFFF`, block 4, on a connected session
in front of the echoing transport. -/
theorem write_then_read_echo_witness :
    (connectedEcho []).hCard ≠ 0
      ∧ (hex_to_bytes (lit "FFFFFFFFFFFF") 6).length = 6
      ∧ (∀ c ∈ lit "HELLO", 32 ≤ c ∧ c ≤ 126)
      ∧ (write_block_string echoTransport (connectedEcho []) (lit "FFFFFFFFFFFF") 4
          (lit "HELLO" ++ 0 :: [])).1 = 0
      ∧ (read_block_string echoTransport
          (write_block_string echoTransport (connectedEcho []) (lit "FFFFFFFFFFFF") 4
            (lit "HELLO" ++ 0 :: [])).2 (lit "FFFFFFFFFFFF") 4).1
        = (lit "HELLO").take 16 ++ lit "\n[Hex: " ++ hex_dump (pad_to_block (lit "HELLO"))
          ++ lit "]" :=
  ⟨by decide, by decide, by decide,
    (write_then_read_echo (connectedEcho []) (lit "FFFFFFFFFFFF") (lit "HELLO") [] 4
      (by decide) (by decide) (by decide)).1,
    (write_then_read_echo (connectedEcho []) (lit "FFFFFFFFFFFF") (lit "HELLO") [] 4
      (by decide) (by decide) (by decide)).2.1⟩

/-- C13 as stated fails: a successful read of the block `HELLO` padded with zeros returns
a text whose hex dump has a space after the last byte, so the text ends with `00 ]`, not
with `00]`, and differs from the text built with the space-separated rendering. -/
theorem hex_dump_trailing_space :
    read_succeeds echoTransport (connectedEcho (pad_to_block (lit "HELLO")))
        (lit "FFFFFFFFFFFF") 4
      ∧ (read_block_string echoTransport (connectedEcho (pad_to_block (lit "HELLO")))
          (lit "FFFFFFFFFFFF") 4).1
        = lit "HELLO\n[Hex: 48 45 4C 4C 4F 00 00 00 00 00 00 00 00 00 00 00 ]"
      ∧ (read_block_string echoTransport (connectedEcho (pad_to_block (lit "HELLO")))
          (lit "FFFFFFFFFFFF") 4).1
        ≠ lit "HELLO" ++ lit "\n[Hex: " ++ encode_hex (pad_to_block (lit "HELLO")) ++ lit "]"
      ∧ encode_hex (pad_to_block (lit "HELLO"))
        = lit "48 45 4C 4C 4F 00 00 00 00 00 00 00 00 00 00 00" := by
  refine ⟨?_, ?_, ?_, ?_⟩ <;> decide

/-- C13, amended: a successful `read_block_string` whose response carries a 16-byte
payload `p` returns the display text of `p` (the bytes before the first `0x00`, printable
ones as themselves and the others as `.`), a newline, `[Hex: `, the hex dump of `p` and
`]`, where the hex dump is each byte as two uppercase hexadecimal digits followed by one
space: the space-separated rendering with one more space after the last byte. -/
theorem read_block_string_text {σ : Type} (tx : Transmit σ) (g : Globals σ)
    (key : List Nat) (b : Int) (p : List Nat) (hs : read_succeeds tx g key b)
    (hp : (read_response tx g key b).recv = p ++ [0x90, 0x00]) (hlen : p.length = 16) :
    (read_block_string tx g key b).1
        = (p.takeWhile (fun c => c != 0)).map display_char ++ lit "\n[Hex: " ++ hex_dump p
          ++ lit "]"
      ∧ hex_dump p = encode_hex p ++ [32]
      ∧ (read_block_string tx g key b).1
        = (p.takeWhile (fun c => c != 0)).map display_char ++ lit "\n[Hex: " ++ encode_hex p
          ++ lit " ]" := by
  have hne : p ≠ [] := by
    intro h
    rw [h] at hlen
    exact absurd hlen (by decide)
  have h1 := read_block_string_payload tx g key b p hs hp hlen
  have h2 := hex_dump_encode_hex p hne
  refine ⟨h1, h2, ?_⟩
  rw [h1, h2, show lit " ]" = [32] ++ lit "]" by decide]
  simp only [List.append_assoc]

/-- Witness of the amended C13: the block `HELLO` padded with zeros behind the echoing
transport. -/
theorem read_block_string_text_witness :
    read_succeeds echoTransport (connectedEcho (pad_to_block (lit "HELLO")))
        (lit "FFFFFFFFFFFF") 4
      ∧ (read_response echoTransport (connectedEcho (pad_to_block (lit "HELLO")))
          (lit "FFFFFFFFFFFF") 4).recv = pad_to_block (lit "HELLO") ++ [0x90, 0x00]
      ∧ (pad_to_block (lit "HELLO")).length = 16
      ∧ (read_block_string echoTransport (connectedEcho (pad_to_block (lit "HELLO")))
          (lit "FFFFFFFFFFFF") 4).1
        = ((pad_to_block (lit "HELLO")).takeWhile (fun c => c != 0)).map display_char
          ++ lit "\n[Hex: " ++ encode_hex (pad_to_block (lit "HELLO")) ++ lit " ]" :=
  ⟨by decide, by decide, by decide,
    (read_block_string_text echoTransport (connectedEcho (pad_to_block (lit "HELLO")))
      (lit "FFFFFFFFFFFF") 4 (pad_to_block (lit "HELLO")) (by decide) (by decide)
      (by decide)).2.2⟩

/-- C14 as stated fails: a read that succeeds on a block holding the 16 characters
`ERROR: 123456789` returns a text that begins with `ERROR: `. -/
theorem successful_read_with_error_text :
    read_succeeds echoTransport (connectedEcho (lit "ERROR: 123456789"))
        (lit "FFFFFFFFFFFF") 4
      ∧ (lit "ERROR: 123456789").length = 16
      ∧ (read_block_string echoTransport (connectedEcho (lit "ERROR: 123456789"))
          (lit "FFFFFFFFFFFF") 4).1
        = lit "ERROR: " ++ lit
          "123456789\n[Hex: 45 52 52 4F 52 3A 20 31 32 33 34 35 36 37 38 39 ]" := by
  refine ⟨?_, ?_, ?_⟩ <;> decide

/-- C14, amended: whatever the session state, key text, block number and transport, every
text `read_block_string` returns when the read fails begins with `ERROR: `, so a text
without that beginning is a success; and the text of a successful read of a 16-byte block
begins with `ERROR: ` exactly when the block itself begins with these seven characters. -/
theorem error_text_of_read {σ : Type} (tx : Transmit σ) (g : Globals σ) (key : List Nat)
    (b : Int) :
    (¬ read_succeeds tx g key b → lit "ERROR: " <+: (read_block_string tx g key b).1)
      ∧ (¬ lit "ERROR: " <+: (read_block_string tx g key b).1 → read_succeeds tx g key b)
      ∧ (read_succeeds tx g key b → ∀ p : List Nat,
          (read_response tx g key b).recv = p ++ [0x90, 0x00] → p.length = 16 →
          (lit "ERROR: " <+: (read_block_string tx g key b).1 ↔ lit "ERROR: " <+: p)) := by
  refine ⟨read_block_string_failure tx g key b, ?_, ?_⟩
  · intro h
    by_contra hs
    exact h (read_block_string_failure tx g key b hs)
  · intro hs p hp hlen
    have hE1 : ∀ c ∈ lit "ERROR: ", c ≠ 10 := by decide
    have hE2 : ∀ c ∈ lit "ERROR: ", 32 ≤ c ∧ c ≤ 126 ∧ c ≠ 46 := by decide
    have hnl : lit "\n[Hex: " = 10 :: lit "[Hex: " := by decide
    rw [read_block_string_payload tx g key b p hs hp hlen, List.append_assoc,
      List.append_assoc, hnl, List.cons_append,
      prefix_before_separator 10 _ _ _ hE1, prefix_of_display _ hE2]

/-- Witness of the amended C14: the block `ERROR: 123456789` behind the echoing transport
is read successfully and the text returned begins with `ERROR: `. -/
theorem error_text_of_read_witness :
    read_succeeds echoTransport (connectedEcho (lit "ERROR: 123456789"))
        (lit "FFFFFFFFFFFF") 4
      ∧ lit "ERROR: " <+: (read_block_string echoTransport
          (connectedEcho (lit "ERROR: 123456789")) (lit "FFFFFFFFFFFF") 4).1 :=
  ⟨by decide,
    ((error_text_of_read echoTransport (connectedEcho (lit "ERROR: 123456789"))
      (lit "FFFFFFFFFFFF") 4).2.2 (by decide) (lit "ERROR: 123456789") (by decide)
      (by decide)).mpr ⟨lit "123456789", by decide⟩⟩

/-- C15 as stated fails for `authenticate_block`: when the response carries the status
word `69 86` the message it leaves is the generic status-word message
`Authentication failed: SW=XXYY` with the two bytes filled in. -/
theorem authenticate_block_not_supported_generic :
    connected.hCard ≠ 0
      ∧ (authenticate_block notSupportedTransport connected 4 0x60 0).1 = -1
      ∧ get_last_error (authenticate_block notSupportedTransport connected 4 0x60 0).2
        = lit "Authentication failed: SW=" ++ fmt_02X 0x69 ++ fmt_02X 0x86
      ∧ get_last_error (authenticate_block notSupportedTransport connected 4 0x60 0).2
        = lit "Authentication failed: SW=6986" := by
  refine ⟨?_, ?_, ?_, ?_⟩ <;> decide

/-- C15, amended: on a connected session, when the response to the load-key frame is the
two-byte status word `69 86`, `load_key` returns -1 and leaves the message
`Load key not supported - trying alternative method`; for every other two-byte status
word `x y` that is not `90 00` it returns -1 and leaves the generic message
`Load key failed: SW=XXYY` with the two bytes filled in, and the message for `69 86`
differs from every such generic message. `authenticate_block` has no case for `69 86`:
for every two-byte status word `x y` that is not `90 00`, `69 86` included, it returns -1
and leaves the generic message `Authentication failed: SW=XXYY`. -/
theorem not_supported_message {σ : Type} (tx : Transmit σ) (g : Globals σ) (key : List Nat)
    (slot b t s : Int) (x y : Nat) (hc : g.hCard ≠ 0)
    (hk : (hex_to_bytes key 6).length = 6) :
    ((tx g.pcsc g.hCard (pioSendPci g) (load_key_frame key slot)).1.rv = 0 →
      (tx g.pcsc g.hCard (pioSendPci g) (load_key_frame key slot)).1.recv = [x, y] →
        (x = 0x69 ∧ y = 0x86 →
          (load_key tx g key slot).1 = -1
          ∧ get_last_error (load_key tx g key slot).2
            = lit "Load key not supported - trying alternative method")
        ∧ (¬ (x = 0x90 ∧ y = 0x00) → ¬ (x = 0x69 ∧ y = 0x86) →
          (load_key tx g key slot).1 = -1
          ∧ get_last_error (load_key tx g key slot).2
            = lit "Load key failed: SW=" ++ fmt_02X x ++ fmt_02X y))
    ∧ (∀ x2 y2 : Nat, lit "Load key not supported - trying alternative method"
        ≠ lit "Load key failed: SW=" ++ fmt_02X x2 ++ fmt_02X y2)
    ∧ ((tx g.pcsc g.hCard (pioSendPci g) (authenticate_frame b t s)).1.rv = 0 →
      (tx g.pcsc g.hCard (pioSendPci g) (authenticate_frame b t s)).1.recv = [x, y] →
      ¬ (x = 0x90 ∧ y = 0x00) →
        (authenticate_block tx g b t s).1 = -1
        ∧ get_last_error (authenticate_block tx g b t s).2
          = lit "Authentication failed: SW=" ++ fmt_02X x ++ fmt_02X y)
    ∧ lit "Authentication failed: SW=" ++ fmt_02X 0x69 ++ fmt_02X 0x86
      = lit "Authentication failed: SW=6986" := by
  refine ⟨?_, ?_, ?_, by decide⟩
  · intro hrv hrecv
    obtain ⟨_, _, _, p4, p5⟩ := load_key_paths tx g key slot _ rfl hc hk
    have hl : 2 ≤ (tx g.pcsc g.hCard (pioSendPci g) (load_key_frame key slot)).1.recv.length := by
      rw [hrecv]
      exact le_refl _
    have h0 : recvByte (tx g.pcsc g.hCard (pioSendPci g) (load_key_frame key slot)).1 0 = x := by
      unfold recvByte
      rw [hrecv]
      rfl
    have h1 : recvByte (tx g.pcsc g.hCard (pioSendPci g) (load_key_frame key slot)).1 1 = y := by
      unfold recvByte
      rw [hrecv]
      rfl
    rw [h0, h1] at p4 p5
    exact ⟨fun hs => p4 hrv hl hs, fun hn1 hn2 => p5 hrv hl hn1 hn2⟩
  · intro x2 y2 heq
    have h9 := congrArg (fun l => l.getD 9 0) heq
    have hl : lit "Load key failed: SW=" ++ fmt_02X x2 ++ fmt_02X y2
        = lit "Load key failed: SW=" ++ (fmt_02X x2 ++ fmt_02X y2) := List.append_assoc _ _ _
    rw [hl] at h9
    have e1 : (lit "Load key not supported - trying alternative method").getD 9 0 = 110 := by
      decide
    have e2 : lit "Load key failed: SW=" = lit "Load key " ++ 102 :: lit "ailed: SW=" := by
      decide
    simp only [e1, e2, List.append_assoc, List.cons_append] at h9
    have e3 : (lit "Load key ").length = 9 := by decide
    rw [← e3, List.getD_append_right _ _ _ _ (le_refl _)] at h9
    simp at h9
  · intro hrv hrecv hn
    obtain ⟨_, _, _, p4⟩ := authenticate_block_paths tx g b t s _ rfl hc
    have hl : 2 ≤ (tx g.pcsc g.hCard (pioSendPci g)
        (authenticate_frame b t s)).1.recv.length := by
      rw [hrecv]
      exact le_refl _
    have h0 : recvByte (tx g.pcsc g.hCard (pioSendPci g) (authenticate_frame b t s)).1 0
        = x := by
      unfold recvByte
      rw [hrecv]
      rfl
    have h1 : recvByte (tx g.pcsc g.hCard (pioSendPci g) (authenticate_frame b t s)).1 1
        = y := by
      unfold recvByte
      rw [hrecv]
      rfl
    rw [h0, h1] at p4
    exact p4 hrv hl hn

/-- Witness of the amended C15: a connected session and the key `FFFFFFFFFFFF` in front
of a transport that answers `69 86`. -/
theorem not_supported_message_witness :
    connected.hCard ≠ 0 ∧ (hex_to_bytes (lit "FFFFFFFFFFFF") 6).length = 6
      ∧ (load_key notSupportedTransport connected (lit "FFFFFFFFFFFF") 0).1 = -1
      ∧ get_last_error (load_key notSupportedTransport connected (lit "FFFFFFFFFFFF") 0).2
        = lit "Load key not supported - trying alternative method"
      ∧ get_last_error (authenticate_block notSupportedTransport connected 4 0x60 0).2
        = lit "Authentication failed: SW=" ++ fmt_02X 0x69 ++ fmt_02X 0x86 :=
  ⟨by decide, by decide,
    (((not_supported_message notSupportedTransport connected (lit "FFFFFFFFFFFF") 0 4 0x60 0
      0x69 0x86 (by decide) (by decide)).1 (by decide) (by decide)).1 (by decide)).1,
    (((not_supported_message notSupportedTransport connected (lit "FFFFFFFFFFFF") 0 4 0x60 0
      0x69 0x86 (by decide) (by decide)).1 (by decide) (by decide)).1 (by decide)).2,
    ((not_supported_message notSupportedTransport connected (lit "FFFFFFFFFFFF") 0 4 0x60 0
      0x69 0x86 (by decide) (by decide)).2.2.1 (by decide) (by decide) (by decide)).2⟩

/-- C16: when the subsystem reports a sequence of non-empty reader names as a
multi-string (each name followed by a NUL, a further NUL at the end), `list_readers`
returns exactly those names, in that order, joined by single commas, with no comma before
the first or after the last; for `Reader1`, `Reader2` it returns `Reader1,Reader2`. -/
theorem list_readers_comma_joined {σ : Type} (ps : Subsystem σ) (g : Globals σ)
    (names : List (List Nat)) (tail : List Nat)
    (hnames : ∀ n ∈ names, n ≠ [] ∧ ∀ c ∈ n, c ≠ 0)
    (he : (ps.establishContext g.pcsc SCARD_SCOPE_SYSTEM).1.rv = 0)
    (hrv : (ps.listReaders (ps.establishContext g.pcsc SCARD_SCOPE_SYSTEM).2
      ((ps.establishContext g.pcsc SCARD_SCOPE_SYSTEM).1.hContext.getD g.hContext)).1.rv = 0)
    (hbuf : (ps.listReaders (ps.establishContext g.pcsc SCARD_SCOPE_SYSTEM).2
      ((ps.establishContext g.pcsc SCARD_SCOPE_SYSTEM).1.hContext.getD g.hContext)).1.readers
        = multi_string names ++ 0 :: tail) :
    (list_readers ps g).1 = comma_join names
      ∧ (list_readers twoReaders (program_start ())).1 = lit "Reader1,Reader2" := by
  refine ⟨?_, by decide⟩
  unfold list_readers SCARD_S_SUCCESS
  simp only [he, hrv, ne_eq, not_true_eq_false, if_false, hbuf]
  rw [list_readers_loop_names tail names _ [] true hnames (le_refl _), join_from_true]
  rfl

/-- Witness of C16: the subsystem with the readers `Reader1` and `Reader2`. -/
theorem list_readers_comma_joined_witness :
    (∀ n ∈ [lit "Reader1", lit "Reader2"], n ≠ [] ∧ ∀ c ∈ n, c ≠ 0)
      ∧ (twoReaders.establishContext (program_start ()).pcsc SCARD_SCOPE_SYSTEM).1.rv = 0
      ∧ (list_readers twoReaders (program_start ())).1
        = comma_join [lit "Reader1", lit "Reader2"] :=
  ⟨by decide, by decide,
    (list_readers_comma_joined twoReaders (program_start ()) [lit "Reader1", lit "Reader2"]
      [] (by decide) (by decide) (by decide) (by decide)).1⟩

/-- C17 as stated fails: when `SCardListReaders` succeeds with an empty list of names,
`list_readers` returns the empty text, which does not begin with `ERROR:`. -/
theorem list_readers_empty_success :
    (noReaders.listReaders () 1).1 = ⟨0, [0]⟩
      ∧ (list_readers noReaders (program_start ())).1 = []
      ∧ ¬ (lit "ERROR:" <+: (list_readers noReaders (program_start ())).1) := by
  refine ⟨by decide, by decide, ?_⟩
  rw [show (list_readers noReaders (program_start ())).1 = [] by decide, List.prefix_nil]
  decide

/-- C17, amended: when the subsystem signals a failure status, from
`SCardEstablishContext` or from `SCardListReaders`, `list_readers` returns an error text
that begins with `ERROR:`; when `SCardListReaders` reports success with an empty list of
names, `list_readers` returns the empty text. -/
theorem list_readers_zero_readers {σ : Type} (ps : Subsystem σ) (g : Globals σ) :
    ((ps.establishContext g.pcsc SCARD_SCOPE_SYSTEM).1.rv ≠ 0 →
        lit "ERROR:" <+: (list_readers ps g).1)
      ∧ ((ps.establishContext g.pcsc SCARD_SCOPE_SYSTEM).1.rv = 0 →
        (ps.listReaders (ps.establishContext g.pcsc SCARD_SCOPE_SYSTEM).2
          ((ps.establishContext g.pcsc SCARD_SCOPE_SYSTEM).1.hContext.getD g.hContext)).1.rv
            ≠ 0 →
        lit "ERROR:" <+: (list_readers ps g).1)
      ∧ ((ps.establishContext g.pcsc SCARD_SCOPE_SYSTEM).1.rv = 0 →
        (ps.listReaders (ps.establishContext g.pcsc SCARD_SCOPE_SYSTEM).2
          ((ps.establishContext g.pcsc SCARD_SCOPE_SYSTEM).1.hContext.getD g.hContext)).1.rv
            = 0 →
        (∃ tail, (ps.listReaders (ps.establishContext g.pcsc SCARD_SCOPE_SYSTEM).2
          ((ps.establishContext g.pcsc SCARD_SCOPE_SYSTEM).1.hContext.getD
            g.hContext)).1.readers = 0 :: tail) →
        (list_readers ps g).1 = []) := by
  have e1 : lit "ERROR: Cannot establish context (0x"
      = lit "ERROR:" ++ lit " Cannot establish context (0x" := by decide
  have e2 : lit "ERROR: No readers found (0x" = lit "ERROR:" ++ lit " No readers found (0x" := by
    decide
  refine ⟨?_, ?_, ?_⟩
  · intro he
    unfold list_readers SCARD_S_SUCCESS
    simp only [he, ne_eq, not_false_eq_true, if_true, e1, List.append_assoc]
    exact List.prefix_append _ _
  · intro he hl
    unfold list_readers SCARD_S_SUCCESS
    simp only [he, hl, ne_eq, not_true_eq_false, not_false_eq_true, if_true, if_false, e2,
      List.append_assoc]
    exact List.prefix_append _ _
  · intro he hl hb
    obtain ⟨tail, hb⟩ := hb
    unfold list_readers SCARD_S_SUCCESS
    simp only [he, hl, ne_eq, not_true_eq_false, if_false, hb]
    simp [list_readers_loop]

/-- Witness of the amended C17: the subsystem `noReaders`, whose `SCardListReaders`
succeeds with an empty list. -/
theorem list_readers_zero_readers_witness :
    (noReaders.establishContext (program_start ()).pcsc SCARD_SCOPE_SYSTEM).1.rv = 0
      ∧ (list_readers noReaders (program_start ())).1 = [] :=
  ⟨by decide,
    (list_readers_zero_readers noReaders (program_start ())).2.2 (by decide) (by decide)
      ⟨[], by decide⟩⟩

/-- C18: for every sequence of calls to `list_readers`, `connect_reader`,
`disconnect_card` and `cleanup` from program start, in front of a subsystem whose
successful `SCardConnect` hands out a non-zero handle, at every point of the log of calls
at most one connection is open (opened by a successful `SCardConnect` and not yet given to
`SCardDisconnect`). `connect_reader` on a session that holds a connection first calls
`SCardDisconnect` on it with `SCARD_LEAVE_CARD` and then `SCardConnect`;
`disconnect_card` on a session without a connection makes no call; after `cleanup` the
session holds neither a connection nor a context. -/
theorem single_live_connection {σ : Type} (ps : Subsystem σ) (s : σ)
    (calls : List SessionCall)
    (hconn : ∀ st ctx nm sh pr, (ps.connect st ctx nm sh pr).1.rv = 0 →
      ∃ h, h ≠ 0 ∧ (ps.connect st ctx nm sh pr).1.hCard = some h) :
    (∀ pre, pre <+: (session_run ps (program_start s) calls).log →
        (live_connections pre).length ≤ 1)
      ∧ (∀ (g : Globals σ) (name : List Nat), g.hCard ≠ 0 →
          ∃ rv h, (connect_reader ps g name).2.log
            = g.log ++ [PcscCall.disconnect g.hCard SCARD_LEAVE_CARD,
                PcscCall.connect g.hContext name SCARD_SHARE_SHARED
                  (SCARD_PROTOCOL_T0 ||| SCARD_PROTOCOL_T1) rv h])
      ∧ (∀ g : Globals σ, g.hCard = 0 →
          (disconnect_card ps g).log = g.log ∧ (disconnect_card ps g).pcsc = g.pcsc)
      ∧ (∀ g : Globals σ, (cleanup ps g).hCard = 0 ∧ (cleanup ps g).hContext = 0) := by
  refine ⟨?_, ?_, ?_, ?_⟩
  · exact (session_run_inv ps hconn calls (program_start s) log_inv_start).1
  · intro g name hc
    refine ⟨(ps.connect (ps.disconnect g.pcsc g.hCard SCARD_LEAVE_CARD) g.hContext name
        SCARD_SHARE_SHARED (SCARD_PROTOCOL_T0 ||| SCARD_PROTOCOL_T1)).1.rv,
      (ps.connect (ps.disconnect g.pcsc g.hCard SCARD_LEAVE_CARD) g.hContext name
        SCARD_SHARE_SHARED (SCARD_PROTOCOL_T0 ||| SCARD_PROTOCOL_T1)).1.hCard, ?_⟩
    unfold connect_reader
    simp only [hc, ne_eq, not_false_eq_true, if_true]
    split_ifs <;> simp
  · intro g hc
    unfold disconnect_card
    simp [hc]
  · intro g
    unfold cleanup disconnect_card
    simp only []
    split_ifs with h1 h2 h3 <;> simp_all

/-- Witness of C18: list the readers, connect twice, disconnect, connect again and clean
up, in front of the subsystem `twoReaders`, whose connections get the handle 7. -/
theorem single_live_connection_witness :
    (∀ (st : Unit) (ctx : Nat) (nm : List Nat) (sh pr : Nat),
        (twoReaders.connect st ctx nm sh pr).1.rv = 0 →
        ∃ h, h ≠ 0 ∧ (twoReaders.connect st ctx nm sh pr).1.hCard = some h)
      ∧ (live_connections (session_run twoReaders (program_start ())
          [SessionCall.list_readers, SessionCall.connect_reader (lit "Reader1"),
            SessionCall.connect_reader (lit "Reader2"), SessionCall.disconnect_card,
            SessionCall.connect_reader (lit "Reader1"), SessionCall.cleanup]).log).length
        ≤ 1 :=
  ⟨fun _ _ _ _ _ _ => ⟨7, by decide, rfl⟩,
    (single_live_connection twoReaders ()
      [SessionCall.list_readers, SessionCall.connect_reader (lit "Reader1"),
        SessionCall.connect_reader (lit "Reader2"), SessionCall.disconnect_card,
        SessionCall.connect_reader (lit "Reader1"), SessionCall.cleanup]
      (fun _ _ _ _ _ _ => ⟨7, by decide, rfl⟩)).1 _ (List.prefix_refl _)⟩

/-- C19 as stated fails: when `read_block_string` fails at the read-binary step (key-load
and authenticate accepted, `SCardTransmit` rejecting the read frame) it returns
`ERROR: Read failed (0x80100016)` and the last error is still the message
`Authentication successful` left by the authenticate step. -/
theorem stale_last_error_after_failed_read :
    ¬ read_succeeds readFailTransport connected (lit "FFFFFFFFFFFF") 4
      ∧ (read_block_string readFailTransport connected (lit "FFFFFFFFFFFF") 4).1
        = lit "ERROR: Read failed (0x80100016)"
      ∧ get_last_error (read_block_string readFailTransport connected (lit "FFFFFFFFFFFF") 4).2
        = lit "Authentication successful" := by
  refine ⟨?_, ?_, ?_⟩ <;> decide

/-- C19, amended: after every call of `connect_reader`, `load_key`, `authenticate_block`
or `write_block_string`, `get_last_error` returns a message describing the outcome of that
call. Each of them overwrites the slot on every path: what it leaves does not depend on
the message `m` that was there before. After a call that succeeded the slot holds that
operation's success message; after a call that failed it holds the failure message of
the path that failed, which is never one of the success messages. `read_block_string`
writes no message of its own and reports its own failures in the returned text only: on a
session without a connection it leaves the slot as it was; when its key-load or its
authenticate step fails the slot holds that step's failure message; once both steps have
succeeded the slot holds `Authentication successful`, whether the read-binary step then
fails or succeeds (for a response of at most 87 bytes, which fits the buffers of the
operation). -/
theorem last_error_written {σ : Type} (tx : Transmit σ) (ps : Subsystem σ) (g : Globals σ)
    (key text name m : List Nat) (slot b t s : Int) :
    (connect_reader ps { g with error_msg := m } name = connect_reader ps g name
      ∧ load_key tx { g with error_msg := m } key slot = load_key tx g key slot
      ∧ authenticate_block tx { g with error_msg := m } b t s = authenticate_block tx g b t s
      ∧ write_block_string tx { g with error_msg := m } key b text
        = write_block_string tx g key b text)
    ∧ (((connect_reader ps g name).1 = 0 →
          get_last_error (connect_reader ps g name).2 = lit "Connected using protocol: T0"
          ∨ get_last_error (connect_reader ps g name).2 = lit "Connected using protocol: T1")
      ∧ ((load_key tx g key slot).1 = 0 →
          get_last_error (load_key tx g key slot).2 = lit "Key loaded successfully")
      ∧ ((authenticate_block tx g b t s).1 = 0 →
          get_last_error (authenticate_block tx g b t s).2 = lit "Authentication successful")
      ∧ ((write_block_string tx g key b text).1 = 0 →
          get_last_error (write_block_string tx g key b text).2 = lit "Write successful"))
    ∧ (((connect_reader ps g name).1 ≠ 0 →
          get_last_error (connect_reader ps g name).2 ∉ success_messages)
      ∧ ((load_key tx g key slot).1 ≠ 0 →
          get_last_error (load_key tx g key slot).2 ∉ success_messages)
      ∧ ((authenticate_block tx g b t s).1 ≠ 0 →
          get_last_error (authenticate_block tx g b t s).2 ∉ success_messages)
      ∧ ((write_block_string tx g key b text).1 ≠ 0 →
          get_last_error (write_block_string tx g key b text).2 ∉ success_messages))
    ∧ (∀ r, ps.connect (if g.hCard ≠ 0 then ps.disconnect g.pcsc g.hCard SCARD_LEAVE_CARD
          else g.pcsc) g.hContext name SCARD_SHARE_SHARED
          (SCARD_PROTOCOL_T0 ||| SCARD_PROTOCOL_T1) = r → r.1.rv ≠ 0 →
        (connect_reader ps g name).1 = -1
        ∧ get_last_error (connect_reader ps g name).2
          = lit "SCardConnect failed (0x" ++ fmt_08lX r.1.rv ++ lit ")")
    ∧ ((g.hCard = 0 →
          (load_key tx g key slot).1 = -1
          ∧ get_last_error (load_key tx g key slot).2 = lit "Not connected to card")
      ∧ (g.hCard ≠ 0 → (hex_to_bytes key 6).length ≠ 6 →
          (load_key tx g key slot).1 = -1
          ∧ get_last_error (load_key tx g key slot).2
            = lit "Invalid key length: expected 12 hex chars, got "
              ++ fmt_d (hex_to_bytes key 6).length ++ lit " bytes")
      ∧ (g.hCard ≠ 0 → (hex_to_bytes key 6).length = 6 →
          ∀ r, tx g.pcsc g.hCard (pioSendPci g) (load_key_frame key slot) = r →
            (r.1.rv ≠ 0 →
              (load_key tx g key slot).1 = -1
              ∧ get_last_error (load_key tx g key slot).2
                = lit "SCardTransmit failed (0x" ++ fmt_08lX r.1.rv ++ lit ")")
            ∧ (r.1.rv = 0 → r.1.recv.length < 2 →
              (load_key tx g key slot).1 = -1
              ∧ get_last_error (load_key tx g key slot).2
                = lit "Invalid response length: " ++ fmt_lu r.1.recv.length)
            ∧ (r.1.rv = 0 → 2 ≤ r.1.recv.length →
              recvByte r.1 0 = 0x69 ∧ recvByte r.1 1 = 0x86 →
              (load_key tx g key slot).1 = -1
              ∧ get_last_error (load_key tx g key slot).2
                = lit "Load key not supported - trying alternative method")
            ∧ (r.1.rv = 0 → 2 ≤ r.1.recv.length →
              ¬ (recvByte r.1 0 = 0x90 ∧ recvByte r.1 1 = 0x00) →
              ¬ (recvByte r.1 0 = 0x69 ∧ recvByte r.1 1 = 0x86) →
              (load_key tx g key slot).1 = -1
              ∧ get_last_error (load_key tx g key slot).2
                = lit "Load key failed: SW=" ++ fmt_02X (recvByte r.1 0)
                  ++ fmt_02X (recvByte r.1 1))))
    ∧ ((g.hCard = 0 →
          (authenticate_block tx g b t s).1 = -1
          ∧ get_last_error (authenticate_block tx g b t s).2 = lit "Not connected to card")
      ∧ (g.hCard ≠ 0 →
          ∀ r, tx g.pcsc g.hCard (pioSendPci g) (authenticate_frame b t s) = r →
            (r.1.rv ≠ 0 →
              (authenticate_block tx g b t s).1 = -1
              ∧ get_last_error (authenticate_block tx g b t s).2
                = lit "Auth SCardTransmit failed (0x" ++ fmt_08lX r.1.rv ++ lit ")")
            ∧ (r.1.rv = 0 → r.1.recv.length < 2 →
              (authenticate_block tx g b t s).1 = -1
              ∧ get_last_error (authenticate_block tx g b t s).2
                = lit "Invalid auth response length: " ++ fmt_lu r.1.recv.length)
            ∧ (r.1.rv = 0 → 2 ≤ r.1.recv.length →
              ¬ (recvByte r.1 0 = 0x90 ∧ recvByte r.1 1 = 0x00) →
              (authenticate_block tx g b t s).1 = -1
              ∧ get_last_error (authenticate_block tx g b t s).2
                = lit "Authentication failed: SW=" ++ fmt_02X (recvByte r.1 0)
                  ++ fmt_02X (recvByte r.1 1))))
    ∧ ((g.hCard = 0 →
          (write_block_string tx g key b text).1 = -1
          ∧ get_last_error (write_block_string tx g key b text).2
            = lit "Not connected to card")
      ∧ (g.hCard ≠ 0 → (load_key tx g key 0).1 ≠ 0 →
          (write_block_string tx g key b text).1 = -1
          ∧ get_last_error (write_block_string tx g key b text).2
            = get_last_error (load_key tx g key 0).2)
      ∧ (g.hCard ≠ 0 → (load_key tx g key 0).1 = 0 →
          (authenticate_block tx (load_key tx g key 0).2 b 0x60 0).1 ≠ 0 →
          (write_block_string tx g key b text).1 = -2
          ∧ get_last_error (write_block_string tx g key b text).2
            = get_last_error (authenticate_block tx (load_key tx g key 0).2 b 0x60 0).2)
      ∧ ((load_key tx g key 0).1 = 0 →
          (authenticate_block tx (load_key tx g key 0).2 b 0x60 0).1 = 0 →
          ∀ r, tx (authenticate_block tx (load_key tx g key 0).2 b 0x60 0).2.pcsc g.hCard
              (pioSendPci g) (write_frame b text) = r →
            (r.1.rv ≠ 0 →
              (write_block_string tx g key b text).1 = -3
              ∧ get_last_error (write_block_string tx g key b text).2
                = lit "Write failed (0x" ++ fmt_08lX r.1.rv ++ lit ")")
            ∧ (r.1.rv = 0 →
              ¬ (2 ≤ r.1.recv.length ∧ recvByte r.1 0 = 0x90 ∧ recvByte r.1 1 = 0x00) →
              (write_block_string tx g key b text).1 = -4
              ∧ lit "Write failed: SW="
                <+: get_last_error (write_block_string tx g key b text).2
              ∧ (2 ≤ r.1.recv.length →
                get_last_error (write_block_string tx g key b text).2
                  = lit "Write failed: SW=" ++ fmt_02X (recvByte r.1 0)
                    ++ fmt_02X (recvByte r.1 1)))))
    ∧ ((g.hCard = 0 →
          get_last_error (read_block_string tx g key b).2 = get_last_error g)
      ∧ (g.hCard ≠ 0 → (load_key tx g key 0).1 ≠ 0 →
          get_last_error (read_block_string tx g key b).2
            = get_last_error (load_key tx g key 0).2
          ∧ get_last_error (read_block_string tx g key b).2 ∉ success_messages
          ∧ (read_block_string tx g key b).1
            = lit "ERROR: " ++ get_last_error (read_block_string tx g key b).2)
      ∧ (g.hCard ≠ 0 → (load_key tx g key 0).1 = 0 →
          (authenticate_block tx (load_key tx g key 0).2 b 0x60 0).1 ≠ 0 →
          get_last_error (read_block_string tx g key b).2
            = get_last_error (authenticate_block tx (load_key tx g key 0).2 b 0x60 0).2
          ∧ get_last_error (read_block_string tx g key b).2 ∉ success_messages
          ∧ (read_block_string tx g key b).1
            = lit "ERROR: " ++ get_last_error (read_block_string tx g key b).2)
      ∧ ((load_key tx g key 0).1 = 0 →
          (authenticate_block tx (load_key tx g key 0).2 b 0x60 0).1 = 0 →
          (read_response tx g key b).recv.length ≤ 87 →
          get_last_error (read_block_string tx g key b).2
            = lit "Authentication successful")) := by
  unfold get_last_error
  refine ⟨⟨connect_reader_overwrites ps g name m, load_key_overwrites tx g key slot m,
      authenticate_block_overwrites tx g b t s m,
      write_block_string_overwrites tx g key b text m⟩,
    ⟨connect_reader_success_message ps g name, load_key_success_message tx g key slot,
      authenticate_block_success_message tx g b t s,
      write_block_string_success_message tx g key b text⟩,
    ⟨connect_reader_failure_not_success ps g name,
      load_key_failure_not_success tx g key slot,
      authenticate_block_failure_not_success tx g b t s,
      write_block_string_failure_not_success tx g key b text⟩, ?_, ?_, ?_, ?_, ?_⟩
  · intro r hr hrv
    exact (connect_reader_paths ps g name r hr).1 hrv
  · refine ⟨(load_key_early_paths tx g key slot).1, (load_key_early_paths tx g key slot).2, ?_⟩
    intro hc hk r hr
    obtain ⟨p1, p2, _, p4, p5⟩ := load_key_paths tx g key slot r hr hc hk
    exact ⟨p1, p2, p4, p5⟩
  · refine ⟨authenticate_block_not_connected tx g b t s, ?_⟩
    intro hc r hr
    obtain ⟨p1, p2, _, p4⟩ := authenticate_block_paths tx g b t s r hr hc
    exact ⟨p1, p2, p4⟩
  · obtain ⟨e1, e2, e3⟩ := write_block_string_early_paths tx g key b text
    refine ⟨e1, e2, e3, ?_⟩
    intro h1 h2 r hr
    obtain ⟨p1, _, p3⟩ := write_block_string_paths tx g key b text r hr h1 h2
    exact ⟨p1, p3⟩
  · refine ⟨(read_block_string_error_msg tx g key b).1, ?_, ?_, ?_⟩
    · intro hc h1
      obtain ⟨q1, q2⟩ := (read_block_string_step_messages tx g key b hc).1 h1
      refine ⟨q1, ?_, ?_⟩
      · rw [q1]
        exact load_key_failure_not_success tx g key 0 h1
      · rw [q2, q1]
    · intro hc h1 h2
      obtain ⟨q1, q2⟩ := (read_block_string_step_messages tx g key b hc).2 h1 h2
      refine ⟨q1, ?_, ?_⟩
      · rw [q1]
        exact authenticate_block_failure_not_success tx _ b 0x60 0 h2
      · rw [q2, q1]
    · intro h1 h2 _
      rw [(read_block_string_error_msg tx g key b).2 h1 h2,
        authenticate_block_success_message tx _ b 0x60 0 h2]

/-- Witness of the amended C19: a read that fails at the read-binary step, after key-load
and authenticate have succeeded. -/
theorem last_error_written_witness :
    (load_key readFailTransport connected (lit "FFFFFFFFFFFF") 0).1 = 0
      ∧ (authenticate_block readFailTransport
          (load_key readFailTransport connected (lit "FFFFFFFFFFFF") 0).2 4 0x60 0).1 = 0
      ∧ (read_response readFailTransport connected (lit "FFFFFFFFFFFF") 4).recv.length ≤ 87
      ∧ get_last_error (read_block_string readFailTransport connected (lit "FFFFFFFFFFFF") 4).2
        = lit "Authentication successful" :=
  ⟨by decide, by decide, by decide,
    (last_error_written readFailTransport twoReaders connected (lit "FFFFFFFFFFFF")
      (lit "HELLO") (lit "Reader1") [] 0 4 0x60 0).2.2.2.2.2.2.2.2.2.2 (by decide)
      (by decide) (by decide)⟩

/-- C20: for every integer block number `n`, in range or not, negative or not, when
`read_block_string` or `write_block_string` gets as far as its data frame, the block byte
of the authenticate frame (offset 7) and the P2 byte of the data frame (offset 3) of
that call are both `n mod 256`: the call is not rejected and the block authenticated is
the block read or written. -/
theorem block_byte_wraps {σ : Type} (tx : Transmit σ) (g : Globals σ) (key text : List Nat)
    (n : Int) (h1 : (load_key tx g key 0).1 = 0)
    (h2 : (authenticate_block tx (load_key tx g key 0).2 n 0x60 0).1 = 0) :
    (read_block_string tx g key n).2.log
        = (load_key tx g key 0).2.log
          ++ [PcscCall.transmit g.hCard (pioSendPci g)
                [0xFF, 0x86, 0x00, 0x00, 0x05, 0x01, 0x00, (n % 256).toNat, 0x60, 0x00],
              PcscCall.transmit g.hCard (pioSendPci g)
                [0xFF, 0xB0, 0x00, (n % 256).toNat, 0x10]]
      ∧ (write_block_string tx g key n text).2.log
        = (load_key tx g key 0).2.log
          ++ [PcscCall.transmit g.hCard (pioSendPci g)
                [0xFF, 0x86, 0x00, 0x00, 0x05, 0x01, 0x00, (n % 256).toNat, 0x60, 0x00],
              PcscCall.transmit g.hCard (pioSendPci g)
                ([0xFF, 0xD6, 0x00, (n % 256).toNat, 0x10] ++ (string_to_hex text 16).2)]
      ∧ ((n % 256).toNat : Int) = n % 256
      ∧ (n % 256).toNat < 256 := by
  have hc := connected_of_load_key tx g key 0 h1
  have hg1 := load_key_globals tx g key 0
  have hc1 : (load_key tx g key 0).2.hCard ≠ 0 := by rw [hg1.1]; exact hc
  have hpci : pioSendPci (load_key tx g key 0).2 = pioSendPci g := by
    unfold pioSendPci
    rw [hg1.2.1]
  have ha := (authenticate_block_sent tx (load_key tx g key 0).2 n 0x60 0 hc1).1
  rw [hg1.1, hpci] at ha
  unfold authenticate_frame at ha
  have e60 : ((0x60 : Int) % 256).toNat = 0x60 := rfl
  have e0 : ((0 : Int) % 256).toNat = 0 := rfl
  rw [e60, e0] at ha
  refine ⟨?_, ?_, by omega, by omega⟩
  · rw [(read_block_string_steps tx g key n hc).2.2 h1 h2, ha]
    unfold read_frame
    simp
  · rw [((write_block_string_steps tx g key n text hc).2.2 h1 h2).1, ha]
    unfold write_frame
    simp

/-- Witness of C20: the block number -1 is sent as `FF` in both frames. -/
theorem block_byte_wraps_witness :
    (load_key okTransport connected (lit "FFFFFFFFFFFF") 0).1 = 0
      ∧ (authenticate_block okTransport
          (load_key okTransport connected (lit "FFFFFFFFFFFF") 0).2 (-1) 0x60 0).1 = 0
      ∧ (((-1 : Int) % 256).toNat = 0xFF)
      ∧ (read_block_string okTransport connected (lit "FFFFFFFFFFFF") (-1)).2.log
        = (load_key okTransport connected (lit "FFFFFFFFFFFF") 0).2.log
          ++ [PcscCall.transmit connected.hCard (pioSendPci connected)
                [0xFF, 0x86, 0x00, 0x00, 0x05, 0x01, 0x00, ((-1 : Int) % 256).toNat, 0x60,
                  0x00],
              PcscCall.transmit connected.hCard (pioSendPci connected)
                [0xFF, 0xB0, 0x00, ((-1 : Int) % 256).toNat, 0x10]] :=
  ⟨by decide, by decide, by decide,
    (block_byte_wraps okTransport connected (lit "FFFFFFFFFFFF") (lit "HELLO") (-1)
      (by decide) (by decide)).1⟩

end CardComm
